import Mathlib

/-!
# Verification of the `config_grid` repository

Shallow embedding of `config_grid` (files `config_grid/__init__.py` and
`config_grid/utilities.py`) and proofs about it.

The embedding models Python values by the inductive type `PyVal` (the fragment
of the Python value universe that the library manipulates: strings, booleans
and integers), Python `==` by `pyEq` (including the numeric promotion
`True == 1`, `False == 0`), Python `raise` by an explicit error component, and
mutation by explicit state passing: a mutating method of the source becomes a
Lean function returning the post-state together with `Option String`, where
`some e` records that the Python exception `e` escaped (the post-state is then
the state the mutated object was left in when the exception propagated).

Error-name mapping used throughout (the spec uses logical names):
`DuplicateKey` = Python `ValueError` raised by `UniqueList`,
`UnknownKey` = Python `KeyError` raised by `LineDict`,
`ShapeMismatch` = Python `IndexError` raised by the grid's length checks,
`ConflictingShape` = Python `KeyError` raised at the top of `combine`,
`MalformedInput` = failure while destructuring the tabular input.
-/

set_option autoImplicit false

namespace ConfigGridProof

/-- The fragment of Python values the library manipulates: strings (labels,
titles, cell values), booleans (the sentinels used by `UniqueList.swap`) and
integers (cell values in the tests). -/
inductive PyVal : Type where
  | str : String → PyVal
  | bool : Bool → PyVal
  | int : Int → PyVal
deriving DecidableEq, Repr

/-- Python `==` on `PyVal`: structural within one kind, and the numeric
promotion of booleans (`True == 1`, `False == 0`) across `bool`/`int`;
all other cross-kind comparisons are unequal. -/
def pyEq : PyVal → PyVal → Bool
  | .str a, .str b => decide (a = b)
  | .bool a, .bool b => decide (a = b)
  | .int a, .int b => decide (a = b)
  | .bool a, .int n => decide ((if a then (1 : Int) else 0) = n)
  | .int n, .bool b => decide (n = (if b then (1 : Int) else 0))
  | _, _ => false

/-- Python `x in l` for a list `l`: some element of `l` compares `==` to `x`. -/
def pyMem (x : PyVal) (l : List PyVal) : Bool :=
  l.any (fun e => pyEq e x)

/-- Classifying key: `pyEq` compares equal exactly when the keys coincide
(booleans are keyed by their numeric value, reflecting the promotion). -/
def pyKey : PyVal → String ⊕ Int
  | .str s => .inl s
  | .bool b => .inr (if b then 1 else 0)
  | .int n => .inr n

theorem boolKey_inj (x y : Bool) :
    ((if x then (1 : Int) else 0) = (if y then (1 : Int) else 0)) ↔ x = y := by
  cases x <;> cases y <;> simp

theorem pyEq_iff_key {a b : PyVal} : pyEq a b = true ↔ pyKey a = pyKey b := by
  cases a <;> cases b <;> simp [pyEq, pyKey, boolKey_inj]

theorem pyEq_refl (a : PyVal) : pyEq a a = true := by
  rw [pyEq_iff_key]

theorem pyEq_symm {a b : PyVal} : pyEq a b = pyEq b a := by
  cases ha : pyEq a b <;> cases hb : pyEq b a <;> try rfl
  · rw [pyEq_iff_key] at hb
    have : pyEq a b = true := pyEq_iff_key.mpr hb.symm
    rw [ha] at this; cases this
  · rw [pyEq_iff_key] at ha
    have : pyEq b a = true := pyEq_iff_key.mpr ha.symm
    rw [hb] at this; cases this

theorem pyEq_trans {a b c : PyVal} (h₁ : pyEq a b = true) (h₂ : pyEq b c = true) :
    pyEq a c = true := by
  rw [pyEq_iff_key] at *
  exact h₁.trans h₂

theorem pyMem_iff_exists {x : PyVal} {l : List PyVal} :
    pyMem x l = true ↔ ∃ e ∈ l, pyEq e x = true := by
  simp [pyMem, List.any_eq_true]

theorem pyMem_eq_false_iff {x : PyVal} {l : List PyVal} :
    pyMem x l = false ↔ ∀ e ∈ l, pyEq e x = false := by
  simp [pyMem, List.any_eq_false]

theorem pyMem_append {x : PyVal} {l₁ l₂ : List PyVal} :
    pyMem x (l₁ ++ l₂) = (pyMem x l₁ || pyMem x l₂) := by
  simp [pyMem]

theorem pyMem_cons {x e : PyVal} {l : List PyVal} :
    pyMem x (e :: l) = (pyEq e x || pyMem x l) := by
  simp [pyMem]

/-- Membership is invariant under `==`-equal query values. -/
theorem pyMem_congr {x y : PyVal} {l : List PyVal} (h : pyEq x y = true) :
    pyMem x l = pyMem y l := by
  induction l with
  | nil => rfl
  | cons e rest ih =>
    simp only [pyMem_cons, ih]
    cases he : pyEq e x with
    | true =>
      have : pyEq e y = true := pyEq_trans he h
      simp [this, he]
    | false =>
      cases he' : pyEq e y with
      | true =>
        have hxy : pyEq y x = true := by rw [← pyEq_symm] at h; exact h
        have : pyEq e x = true := pyEq_trans he' hxy
        rw [this] at he; cases he
      | false => simp

/-- The built `set(...)` of a list: iterate, keeping the first representative
of each `==`-class.  Only its cardinality is used by the source
(`len(self) == len(set(self))`). -/
def pySetAux (acc : List PyVal) : List PyVal → List PyVal
  | [] => acc
  | x :: rest => if pyMem x acc then pySetAux acc rest else pySetAux (acc ++ [x]) rest

def pySet (l : List PyVal) : List PyVal := pySetAux [] l

/-- `UniqueList.check_still_unique`: `len(self) == len(set(self))`. -/
def checkStillUnique (l : List PyVal) : Bool :=
  decide (l.length = (pySet l).length)

/-- `UniqueList.is_new`: the candidate is not `==`-equal to any element. -/
def isNew (l : List PyVal) (x : PyVal) : Bool :=
  !(pyMem x l)

/-- Specification-side notion of "no duplicates": no two elements compare
Python-equal. -/
def PyDistinct (l : List PyVal) : Prop :=
  l.Pairwise (fun a b => pyEq a b = false)

instance (l : List PyVal) : Decidable (PyDistinct l) := by
  unfold PyDistinct; infer_instance

theorem pySetAux_length_le (l : List PyVal) (acc : List PyVal) :
    (pySetAux acc l).length ≤ acc.length + l.length := by
  induction l generalizing acc with
  | nil => simp [pySetAux]
  | cons x rest ih =>
    simp only [pySetAux]
    cases h : pyMem x acc with
    | true =>
      rw [if_pos rfl]
      calc (pySetAux acc rest).length ≤ acc.length + rest.length := ih acc
        _ ≤ acc.length + (x :: rest).length := by simp only [List.length_cons]; omega
    | false =>
      rw [if_neg Bool.false_ne_true]
      calc (pySetAux (acc ++ [x]) rest).length ≤ (acc ++ [x]).length + rest.length := ih _
        _ = acc.length + (x :: rest).length := by
            simp only [List.length_append, List.length_cons, List.length_nil]
            omega

theorem pySetAux_length_eq_iff (l : List PyVal) (acc : List PyVal) :
    (pySetAux acc l).length = acc.length + l.length ↔
      (PyDistinct l ∧ ∀ e ∈ l, pyMem e acc = false) := by
  induction l generalizing acc with
  | nil => simp [pySetAux, PyDistinct]
  | cons x rest ih =>
    simp only [pySetAux]
    cases h : pyMem x acc with
    | true =>
      rw [if_pos rfl]
      constructor
      · intro hlen
        exfalso
        have := pySetAux_length_le rest acc
        simp only [List.length_cons] at hlen
        omega
      · rintro ⟨-, hmem⟩
        have := hmem x (by simp)
        rw [h] at this; cases this
    | false =>
      rw [if_neg Bool.false_ne_true]
      have hlen : (acc ++ [x]).length = acc.length + 1 := by
        simp only [List.length_append, List.length_cons, List.length_nil]
      have := ih (acc ++ [x])
      rw [hlen] at this
      rw [show acc.length + 1 + rest.length = acc.length + (x :: rest).length by
        simp only [List.length_cons]; omega] at this
      rw [this]
      constructor
      · rintro ⟨hdist, hmem⟩
        have hx : ∀ e ∈ rest, pyEq x e = false := by
          intro e he
          have := hmem e he
          rw [pyMem_append, pyMem_cons] at this
          simp at this
          exact this.2.1
        refine ⟨?_, ?_⟩
        · exact List.Pairwise.cons hx hdist
        · intro e he
          rcases List.mem_cons.mp he with rfl | he'
          · simpa using h
          · have := hmem e he'
            rw [pyMem_append] at this
            simp at this
            exact this.1
      · rintro ⟨hdist, hmem⟩
        rcases List.pairwise_cons.mp hdist with ⟨hx, hrest⟩
        refine ⟨hrest, ?_⟩
        intro e he
        rw [pyMem_append, pyMem_cons]
        have h1 : pyMem e acc = false := hmem e (by simp [he])
        have h2 : pyEq x e = false := hx e he
        simp only [h1, h2]
        rfl

/-- The source's uniqueness check agrees with pairwise distinctness under
Python equality. -/
theorem checkStillUnique_iff {l : List PyVal} :
    checkStillUnique l = true ↔ PyDistinct l := by
  unfold checkStillUnique pySet
  rw [decide_eq_true_iff]
  constructor
  · intro h
    have := (pySetAux_length_eq_iff l []).mp (by simpa using h.symm)
    exact this.1
  · intro h
    have := (pySetAux_length_eq_iff l []).mpr ⟨h, by intro e _; rfl⟩
    simpa using this.symm

/-! ## `UniqueList` operations

Each mutating operation is a function from the pre-state (a `List PyVal`)
to the post-state together with the escaped exception (if any). -/

/-- `UniqueList.extend`: `super().extend(t)` first, then the uniqueness check
(which raises without undoing the extension). -/
def ULextend (l t : List PyVal) : List PyVal × Option String :=
  let l' := l ++ t
  (l', if checkStillUnique l' then none else some "ValueError")

/-- `UniqueList.__setitem__` (positional replacement, the spec's `set_at`):
the uniqueness check runs first, against the whole current list; only then is
the index used. -/
def ULsetitem (l : List PyVal) (i : Nat) (y : PyVal) : List PyVal × Option String :=
  if isNew l y then
    if i < l.length then (l.set i y, none) else (l, some "IndexError")
  else
    (l, some "ValueError")

/-- `UniqueList.append`. -/
def ULappend (l : List PyVal) (x : PyVal) : List PyVal × Option String :=
  if isNew l x then (l ++ [x], none) else (l, some "ValueError")

/-- `UniqueList.swap`:
```
t1, self[i] = self[i], True
t2, self[j] = self[j], False
self[i] = t2
self[j] = t1
```
Every single assignment goes through `__setitem__` and hence through the
uniqueness check; each read happens before the assignment of its line. -/
def ULswap (l : List PyVal) (i j : Nat) : List PyVal × Option String :=
  match l[i]? with
  | none => (l, some "IndexError")
  | some t1 =>
    match ULsetitem l i (.bool true) with
    | (l1, some e) => (l1, some e)
    | (l1, none) =>
      match l1[j]? with
      | none => (l1, some "IndexError")
      | some t2 =>
        match ULsetitem l1 j (.bool false) with
        | (l2, some e) => (l2, some e)
        | (l2, none) =>
          match ULsetitem l2 i t2 with
          | (l3, some e) => (l3, some e)
          | (l3, none) =>
            match ULsetitem l3 j t1 with
            | (l4, some e) => (l4, some e)
            | (l4, none) => (l4, none)

/-- Python `list.index`: index of the first element comparing `==` to `x`
(`list.index` raises `ValueError` when nothing matches; `none` models that). -/
def pyIndex (l : List PyVal) (x : PyVal) : Option Nat :=
  match l with
  | [] => none
  | e :: rest => if pyEq e x then some 0 else (pyIndex rest x).map (· + 1)

theorem pyMem_eq_false_iff_idx {x : PyVal} {l : List PyVal} :
    pyMem x l = false ↔ ∀ k (hk : k < l.length), pyEq l[k] x = false := by
  rw [pyMem_eq_false_iff]
  constructor
  · intro h k hk
    exact h l[k] (List.getElem_mem hk)
  · intro h e he
    obtain ⟨k, hk, rfl⟩ := List.mem_iff_getElem.mp he
    exact h k hk

theorem pyDistinct_idx {l : List PyVal} (hd : PyDistinct l) :
    ∀ k m (hk : k < l.length) (hm : m < l.length), k ≠ m → pyEq l[k] l[m] = false := by
  intro k m hk hm hkm
  rcases Nat.lt_or_ge k m with h | h
  · exact List.pairwise_iff_getElem.mp hd k m hk hm h
  · have hmk : m < k := Nat.lt_of_le_of_ne h (Ne.symm hkm)
    rw [pyEq_symm]
    exact List.pairwise_iff_getElem.mp hd m k hm hk hmk

/-- A `__setitem__` call whose uniqueness check passes and whose index is in
range performs the positional update. -/
theorem ULsetitem_ok {l : List PyVal} {i : Nat} {y : PyVal}
    (h : pyMem y l = false) (hi : i < l.length) :
    ULsetitem l i y = (l.set i y, none) := by
  unfold ULsetitem isNew
  rw [h]
  simp [hi]

theorem pyEq_bool_true_false : pyEq (.bool true) (.bool false) = false := by decide

/-! ## Claims C2, C6, C7 — `UniqueList` behaviour -/

/-- **C2, counterexample.** Extending a `UniqueList` with a duplicate does
raise the `DuplicateKey` error (`ValueError`), but the claim's "no partial
mutation is observable afterwards" is false: `extend` appends first and checks
afterwards, so after the failed call the list holds the appended elements and
a duplicate is observable to a subsequent read. -/
theorem ULextend_partial_mutation_cex :
    (ULextend [PyVal.str "a"] [PyVal.str "a"]).2 = some "ValueError" ∧
    (ULextend [PyVal.str "a"] [PyVal.str "a"]).1 = [PyVal.str "a", PyVal.str "a"] ∧
    (ULextend [PyVal.str "a"] [PyVal.str "a"]).1 ≠ [PyVal.str "a"] ∧
    checkStillUnique (ULextend [PyVal.str "a"] [PyVal.str "a"]).1 = false := by
  refine ⟨rfl, rfl, ?_, rfl⟩
  decide

/-- **C2, amended.** `extend(t)` raises `DuplicateKey` (`ValueError`) exactly
when the concatenation contains a repeated element (Python `==`); in every
case — success or failure — the post-state is the full concatenation `l ++ t`,
i.e. the mutation is performed first and persists on failure. -/
theorem ULextend_spec (l t : List PyVal) :
    (ULextend l t).1 = l ++ t ∧
    ((ULextend l t).2 = none ↔ PyDistinct (l ++ t)) := by
  refine ⟨rfl, ?_⟩
  unfold ULextend
  simp only []
  cases h : checkStillUnique (l ++ t) with
  | true =>
    simp only [if_pos rfl]
    simpa using checkStillUnique_iff.mp h
  | false =>
    rw [if_neg Bool.false_ne_true]
    constructor
    · intro hc; cases hc
    · intro hdist
      have := checkStillUnique_iff.mpr hdist
      rw [h] at this; cases this

/-- **C7, counterexample.** Positionally replacing an element by a value equal
to that same element does not succeed: `__setitem__` checks the candidate
against the whole list, including the slot being replaced, so it raises the
`DuplicateKey` error (`ValueError`) and the claim's "replacing the element at
position i with a value equal to that same element succeeds" is false. -/
theorem ULsetitem_same_value_cex :
    ULsetitem [PyVal.str "a", PyVal.str "b"] 0 (PyVal.str "a") =
      ([PyVal.str "a", PyVal.str "b"], some "ValueError") := by
  decide

/-- **C7, amended.** For a valid position `i`, `set_at(i, x)` fails with the
`DuplicateKey` error if and only if `x` compares equal to **any** element of
the list — including the one at position `i` itself; when `x` equals no
element, the update is performed positionally. -/
theorem ULsetitem_spec (l : List PyVal) (i : Nat) (x : PyVal) (hi : i < l.length) :
    ((ULsetitem l i x).2 = none ↔ ¬∃ e ∈ l, pyEq e x = true) ∧
    ((∀ e ∈ l, pyEq e x = false) → ULsetitem l i x = (l.set i x, none)) ∧
    (pyMem x l = true → ULsetitem l i x = (l, some "ValueError")) := by
  refine ⟨?_, ?_, ?_⟩
  · cases h : pyMem x l with
    | true =>
      unfold ULsetitem isNew
      rw [h]
      simp only [Bool.not_true, Bool.false_eq_true, if_false]
      constructor
      · intro hc; cases hc
      · intro hne
        exact absurd (pyMem_iff_exists.mp h) hne
    | false =>
      rw [ULsetitem_ok h hi]
      simp only [true_iff]
      intro ⟨e, he, hee⟩
      have := pyMem_eq_false_iff.mp h e he
      rw [hee] at this; cases this
  · intro h
    exact ULsetitem_ok (pyMem_eq_false_iff.mpr h) hi
  · intro h
    unfold ULsetitem isNew
    rw [h]
    simp

/-- **C7, witness** for the amended theorem at a concrete input. -/
theorem ULsetitem_spec_witness :
    ULsetitem [PyVal.str "a", PyVal.str "b"] 0 (PyVal.str "c") =
      ([PyVal.str "c", PyVal.str "b"], none) := by
  have h := (ULsetitem_spec [PyVal.str "a", PyVal.str "b"] 0 (PyVal.str "c")
    (by decide)).2.1 (by decide)
  simpa using h

/-- **C6, counterexample.** `swap` is not safe for arbitrary stored values:
with the boolean `True` stored in the list, the very first sentinel
assignment `self[i] = True` trips the uniqueness check, so `swap(1, 2)` on
`[True, "a", "b"]` raises the `DuplicateKey` error (`ValueError`) instead of
exchanging the elements. -/
theorem ULswap_bool_cex :
    ULswap [PyVal.bool true, PyVal.str "a", PyVal.str "b"] 1 2 =
      ([PyVal.bool true, PyVal.str "a", PyVal.str "b"], some "ValueError") := by
  decide

/-- **C6, amended.** For valid positions `i`, `j` of a duplicate-free list
none of whose elements compares Python-equal to `True` or to `False` (so in
particular no boolean and no integer `0`/`1` entries), `swap(i, j)` succeeds,
exchanges the elements at positions `i` and `j`, and leaves every other
element in place; no intermediate uniqueness error is raised. -/
theorem ULswap_spec (l : List PyVal) (i j : Nat) (hd : PyDistinct l)
    (hi : i < l.length) (hj : j < l.length)
    (hb : ∀ e ∈ l, pyEq e (.bool true) = false ∧ pyEq e (.bool false) = false) :
    (ULswap l i j).2 = none ∧
    (ULswap l i j).1.length = l.length ∧
    (ULswap l i j).1[i]? = l[j]? ∧
    (ULswap l i j).1[j]? = l[i]? ∧
    ∀ k, k ≠ i → k ≠ j → (ULswap l i j).1[k]? = l[k]? := by
  have hidx := pyDistinct_idx hd
  have hbidx : ∀ k (hk : k < l.length),
      pyEq l[k] (.bool true) = false ∧ pyEq l[k] (.bool false) = false :=
    fun k hk => hb l[k] (List.getElem_mem hk)
  have c1 : pyMem (.bool true) l = false := by
    rw [pyMem_eq_false_iff_idx]; intro k hk; exact (hbidx k hk).1
  have c2 : pyMem (.bool false) (l.set i (.bool true)) = false := by
    rw [pyMem_eq_false_iff_idx]
    intro k hk
    rw [List.getElem_set]
    by_cases h : i = k
    · rw [if_pos h]; exact pyEq_bool_true_false
    · rw [if_neg h]; exact (hbidx k (by simpa using hk)).2
  have e1 : l[i]? = some l[i] := List.getElem?_eq_getElem hi
  have e2 : ULsetitem l i (.bool true) = (l.set i (.bool true), none) :=
    ULsetitem_ok c1 hi
  by_cases hij : i = j
  · -- swapping a position with itself
    subst hij
    have c3 : pyMem (.bool true) (l.set i (.bool false)) = false := by
      rw [pyMem_eq_false_iff_idx]
      intro k hk
      rw [List.getElem_set]
      by_cases h : i = k
      · rw [if_pos h]; decide
      · rw [if_neg h]; exact (hbidx k (by simpa using hk)).1
    have c4 : pyMem l[i] (l.set i (.bool true)) = false := by
      rw [pyMem_eq_false_iff_idx]
      intro k hk
      rw [List.getElem_set]
      by_cases h : i = k
      · rw [if_pos h, pyEq_symm]; exact (hbidx i hi).1
      · rw [if_neg h]
        exact hidx k i (by simpa using hk) hi (fun hc => h hc.symm)
    have e3 : (l.set i (.bool true))[i]? = some (.bool true) :=
      List.getElem?_set_self (by simpa using hi)
    have e4 : ULsetitem (l.set i (.bool true)) i (.bool false) =
        (l.set i (.bool false), none) := by
      rw [ULsetitem_ok c2 (by simpa using hi), List.set_set]
    have e5 : ULsetitem (l.set i (.bool false)) i (.bool true) =
        (l.set i (.bool true), none) := by
      rw [ULsetitem_ok c3 (by simpa using hi), List.set_set]
    have e6 : ULsetitem (l.set i (.bool true)) i l[i] = (l.set i l[i], none) := by
      rw [ULsetitem_ok c4 (by simpa using hi), List.set_set]
    have hrun : ULswap l i i = (l.set i l[i], none) := by
      unfold ULswap
      simp only [e1, e2, e3, e4, e5, e6]
    rw [hrun]
    refine ⟨rfl, by simp, ?_, ?_, ?_⟩
    · rw [List.getElem?_set_self (by simpa using hi), List.getElem?_eq_getElem hi]
    · rw [List.getElem?_set_self (by simpa using hi), List.getElem?_eq_getElem hi]
    · intro k hk _
      exact List.getElem?_set_ne (fun hc => hk hc.symm)
  · -- distinct positions
    have c3 : pyMem l[j] ((l.set i (.bool true)).set j (.bool false)) = false := by
      rw [pyMem_eq_false_iff_idx]
      intro k hk
      rw [List.getElem_set, List.getElem_set]
      by_cases hjk : j = k
      · rw [if_pos hjk, pyEq_symm]; exact (hbidx j hj).2
      · rw [if_neg hjk]
        by_cases hik : i = k
        · rw [if_pos hik, pyEq_symm]; exact (hbidx j hj).1
        · rw [if_neg hik]
          exact hidx k j (by simpa using hk) hj (fun hc => hjk hc.symm)
    have c4 : pyMem l[i]
        (((l.set i (.bool true)).set j (.bool false)).set i l[j]) = false := by
      rw [pyMem_eq_false_iff_idx]
      intro k hk
      rw [List.getElem_set, List.getElem_set, List.getElem_set]
      by_cases hik : i = k
      · rw [if_pos hik]
        exact hidx j i hj hi (fun hc => hij hc.symm)
      · rw [if_neg hik]
        by_cases hjk : j = k
        · rw [if_pos hjk, pyEq_symm]; exact (hbidx i hi).2
        · rw [if_neg hjk, if_neg hik]
          exact hidx k i (by simpa using hk) hi (fun hc => hik hc.symm)
    have e3 : (l.set i (.bool true))[j]? = some l[j] := by
      rw [List.getElem?_set_ne hij, List.getElem?_eq_getElem hj]
    have e4 : ULsetitem (l.set i (.bool true)) j (.bool false) =
        ((l.set i (.bool true)).set j (.bool false), none) :=
      ULsetitem_ok c2 (by simpa using hj)
    have e5 : ULsetitem ((l.set i (.bool true)).set j (.bool false)) i l[j] =
        (((l.set i (.bool true)).set j (.bool false)).set i l[j], none) :=
      ULsetitem_ok c3 (by simpa using hi)
    have e6 : ULsetitem (((l.set i (.bool true)).set j (.bool false)).set i l[j])
        j l[i] =
        ((((l.set i (.bool true)).set j (.bool false)).set i l[j]).set j l[i],
          none) :=
      ULsetitem_ok c4 (by simpa using hj)
    have hrun : ULswap l i j =
        ((((l.set i (.bool true)).set j (.bool false)).set i l[j]).set j l[i],
          none) := by
      unfold ULswap
      simp only [e1, e2, e3, e4, e5, e6]
    rw [hrun]
    refine ⟨rfl, by simp, ?_, ?_, ?_⟩
    · rw [List.getElem?_set_ne (fun hc => hij hc.symm),
        List.getElem?_set_self (by simpa using hi), List.getElem?_eq_getElem hj]
    · rw [List.getElem?_set_self (by simpa using hj), List.getElem?_eq_getElem hi]
    · intro k hki hkj
      rw [List.getElem?_set_ne (fun hc => hkj hc.symm),
        List.getElem?_set_ne (fun hc => hki hc.symm),
        List.getElem?_set_ne (fun hc => hkj hc.symm),
        List.getElem?_set_ne (fun hc => hki hc.symm)]

/-- **C6, witness** for the amended theorem at a concrete input. -/
theorem ULswap_spec_witness :
    (ULswap [PyVal.str "x", PyVal.str "y", PyVal.str "z"] 0 2).2 = none ∧
    (ULswap [PyVal.str "x", PyVal.str "y", PyVal.str "z"] 0 2).1[0]? =
      [PyVal.str "x", PyVal.str "y", PyVal.str "z"][2]? ∧
    (ULswap [PyVal.str "x", PyVal.str "y", PyVal.str "z"] 0 2).1[2]? =
      [PyVal.str "x", PyVal.str "y", PyVal.str "z"][0]? ∧
    (ULswap [PyVal.str "x", PyVal.str "y", PyVal.str "z"] 0 2).1[1]? =
      [PyVal.str "x", PyVal.str "y", PyVal.str "z"][1]? := by
  obtain ⟨h1, -, h3, h4, h5⟩ := ULswap_spec [PyVal.str "x", PyVal.str "y", PyVal.str "z"]
    0 2 (by decide) (by decide) (by decide) (by decide)
  exact ⟨h1, h3, h4, h5 1 (by decide) (by decide)⟩

/-! ## Python dictionaries keyed by `PyVal`

`LineDict` instances are Python `dict` subclasses; the dictionary itself is
modelled as an insertion-ordered association list with `==`-based key lookup. -/

/-- Python `d[k]` raw dict lookup: value of the first entry whose key
compares `==` to `k`. -/
def pyLookup {β : Type} (k : PyVal) : List (PyVal × β) → Option β
  | [] => none
  | (ke, v) :: rest => if pyEq ke k then some v else pyLookup k rest

/-- Python `d[k] = v`: replace the value at the `==`-matching key in place
(the stored key object is kept), else append a new entry at the end. -/
def dictSet {β : Type} : List (PyVal × β) → PyVal → β → List (PyVal × β)
  | [], k, v => [(k, v)]
  | (ke, ve) :: rest, k, v =>
    if pyEq ke k then (ke, v) :: rest else (ke, ve) :: dictSet rest k v

/-- In-place modification of the value stored at the `==`-matching key
(models Python mutating the object obtained from the dict); absent key:
no change. -/
def dictModify {β : Type} (k : PyVal) (f : β → β) : List (PyVal × β) → List (PyVal × β)
  | [] => []
  | (ke, v) :: rest =>
    if pyEq ke k then (ke, f v) :: rest else (ke, v) :: dictModify k f rest

instance {ε α : Type} [DecidableEq ε] [DecidableEq α] : DecidableEq (Except ε α) := fun x y =>
  match x, y with
  | .ok a, .ok b =>
    if h : a = b then isTrue (by rw [h]) else isFalse (fun hc => by cases hc; exact h rfl)
  | .error a, .error b =>
    if h : a = b then isTrue (by rw [h]) else isFalse (fun hc => by cases hc; exact h rfl)
  | .ok _, .error _ => isFalse (fun hc => by cases hc)
  | .error _, .ok _ => isFalse (fun hc => by cases hc)

/-! ## The grid data model

In the source, every row's `LineDict` shares its `headings` list with the
grid's `col_headings` `UniqueList` (the very same object, passed by reference
in `__init__` and `append_row`), and the `_data` `LineDict`'s `headings` is
the grid's `row_headings` object.  The model therefore keeps the two heading
lists once, at grid level; each row keeps only its own dict entries and its
own default value (rows created by `__init__` get the grid's default, rows
created by `append_row` get `""`). -/

/-- One row's `LineDict`: its raw dict entries and its default value. -/
structure LineRow where
  entries : List (PyVal × PyVal)
  dflt : PyVal
deriving DecidableEq, Repr

/-- The `ConfigGrid` state: `rows` is the `_data` dict (row label to row). -/
structure Grid where
  title : PyVal
  dflt : PyVal
  row_headings : List PyVal
  col_headings : List PyVal
  rows : List (PyVal × LineRow)
deriving DecidableEq, Repr

/-- `grid[r][c]` read: `_data.__getitem__(r)` (falling back to `_data`'s own
default `""` — a plain string, which then fails with `TypeError` when
indexed — if `r` is an allowed heading that was never written, and raising
`KeyError` otherwise), then `LineDict.__getitem__(c)` on the row (stored
value, else the row's default if `c` is an allowed column, else `KeyError`). -/
def getCell (g : Grid) (r c : PyVal) : Except String PyVal :=
  match pyLookup r g.rows with
  | some row =>
    match pyLookup c row.entries with
    | some v => .ok v
    | none => if pyMem c g.col_headings then .ok row.dflt else .error "KeyError"
  | none =>
    if pyMem r g.row_headings then .error "TypeError" else .error "KeyError"

/-- `grid[r][c] = v`: `_data.__getitem__(r)` followed by
`LineDict.__setitem__(c, v)` on the row (which requires `c` to be an allowed
column). -/
def setCell (g : Grid) (r c v : PyVal) : Grid × Option String :=
  match pyLookup r g.rows with
  | some _ =>
    if pyMem c g.col_headings then
      ({ g with
          rows := dictModify r (fun row => { row with entries := dictSet row.entries c v }) g.rows },
        none)
    else (g, some "KeyError")
  | none =>
    if pyMem r g.row_headings then (g, some "TypeError") else (g, some "KeyError")

/-- `ConfigGrid.row(r)`: the row's values in column order (each element read
lazily through `__getitem__`; the first failing read aborts). -/
def rowValsE (g : Grid) (r : PyVal) : Except String (List PyVal) :=
  g.col_headings.mapM (fun c => getCell g r c)

/-- `ConfigGrid.col(c)`: the column's values in row order. -/
def colValsE (g : Grid) (c : PyVal) : Except String (List PyVal) :=
  g.row_headings.mapM (fun r => getCell g r c)

/-- `ConfigGrid.cells`: raster order, outer loop over row labels, inner loop
over column labels. -/
def cellsList (g : Grid) : List (PyVal × PyVal × Except String PyVal) :=
  (g.row_headings.map (fun r => g.col_headings.map (fun c => (r, c, getCell g r c)))).flatten

/-- `ConfigGrid.__init__(row_headings, col_headings, title=None, default="")`.
With `title=None` the source reads `self.__name__`, an attribute instances do
not have, so construction fails with `AttributeError` before anything is
built.  Otherwise the two `UniqueList` constructors validate the heading
lists (row headings first), and `_data` is filled with one empty `LineDict`
per row heading, carrying the grid default. -/
def gridInit (rh ch : List PyVal) (title : Option PyVal) (dflt : PyVal) :
    Except String Grid :=
  match title with
  | none => .error "AttributeError"
  | some t =>
    if checkStillUnique rh then
      if checkStillUnique ch then
        .ok { title := t, dflt := dflt, row_headings := rh, col_headings := ch,
              rows := rh.foldl (fun d r => dictSet d r ⟨[], dflt⟩) [] }
      else .error "ValueError"
    else .error "ValueError"

/-- The loop `for col_heading, value in zip(...): self._data[r][col_heading] = value`
(and the analogous loop of `from_lines`): sequence of `setCell`s, stopping at
the first escaping exception. -/
def runRowCells (r : PyVal) : Grid → List (PyVal × PyVal) → Grid × Option String
  | g, [] => (g, none)
  | g, (c, v) :: rest =>
    match setCell g r c v with
    | (g1, none) => runRowCells r g1 rest
    | (g1, some e) => (g1, some e)

/-- The loop `for row_heading, value in zip(...): self._data[row_heading][c] = value`. -/
def runColCells (c : PyVal) : Grid → List (PyVal × PyVal) → Grid × Option String
  | g, [] => (g, none)
  | g, (r, v) :: rest =>
    match setCell g r c v with
    | (g1, none) => runColCells c g1 rest
    | (g1, some e) => (g1, some e)

/-- `ConfigGrid.append_row`: length check against the column count, then
`UniqueList.append` of the heading (uniqueness check), then `_data[heading] =
LineDict(self.col_headings)` (note: default `""`, not the grid default), then
the positional fill loop. -/
def appendRow (g : Grid) (heading : PyVal) (row : List PyVal) : Grid × Option String :=
  if g.col_headings.length ≠ row.length then (g, some "IndexError")
  else if pyMem heading g.row_headings then (g, some "ValueError")
  else
    let g1 : Grid := { g with
      row_headings := g.row_headings ++ [heading]
      rows := dictSet g.rows heading ⟨[], .str ""⟩ }
    runRowCells heading g1 (g.col_headings.zip row)

/-- `ConfigGrid.append_col`: length check against the row count, then
`UniqueList.append` of the heading onto the (shared) column list, then the
positional fill loop over the existing rows. -/
def appendCol (g : Grid) (heading : PyVal) (col : List PyVal) : Grid × Option String :=
  if g.row_headings.length ≠ col.length then (g, some "IndexError")
  else if pyMem heading g.col_headings then (g, some "ValueError")
  else
    let g1 : Grid := { g with col_headings := g.col_headings ++ [heading] }
    runColCells heading g1 (g.row_headings.zip col)

/-- `ConfigGrid.set_row`. -/
def setRow (g : Grid) (heading : PyVal) (values : List PyVal) : Grid × Option String :=
  if g.col_headings.length ≠ values.length then (g, some "IndexError")
  else runRowCells heading g (g.col_headings.zip values)

/-- `ConfigGrid.set_col`. -/
def setCol (g : Grid) (heading : PyVal) (values : List PyVal) : Grid × Option String :=
  if g.row_headings.length ≠ values.length then (g, some "IndexError")
  else runColCells heading g (g.row_headings.zip values)

/-- `ConfigGrid.swap_rows`: two `list.index` calls (raising `ValueError` when
the label is absent), then `UniqueList.swap` on the row-heading list. -/
def swapRows (g : Grid) (r1 r2 : PyVal) : Grid × Option String :=
  match pyIndex g.row_headings r1 with
  | none => (g, some "ValueError")
  | some i =>
    match pyIndex g.row_headings r2 with
    | none => (g, some "ValueError")
    | some j =>
      match ULswap g.row_headings i j with
      | (l1, e) => ({ g with row_headings := l1 }, e)

/-- `ConfigGrid.swap_cols`. -/
def swapCols (g : Grid) (c1 c2 : PyVal) : Grid × Option String :=
  match pyIndex g.col_headings c1 with
  | none => (g, some "ValueError")
  | some i =>
    match pyIndex g.col_headings c2 with
    | none => (g, some "ValueError")
    | some j =>
      match ULswap g.col_headings i j with
      | (l1, e) => ({ g with col_headings := l1 }, e)

/-- `for heading in new_rows: self.append_row(heading, other.row(heading))`;
`other.row(...)` is a generator forced by `tuple(row)` inside `append_row`
before anything else, so a failing read escapes before any mutation of that
call. -/
def combineAppendRows (other : Grid) : Grid → List PyVal → Grid × Option String
  | g, [] => (g, none)
  | g, h :: hs =>
    match rowValsE other h with
    | .error e => (g, some e)
    | .ok vs =>
      match appendRow g h vs with
      | (g1, none) => combineAppendRows other g1 hs
      | (g1, some e) => (g1, some e)

def combineAppendCols (other : Grid) : Grid → List PyVal → Grid × Option String
  | g, [] => (g, none)
  | g, h :: hs =>
    match colValsE other h with
    | .error e => (g, some e)
    | .ok vs =>
      match appendCol g h vs with
      | (g1, none) => combineAppendCols other g1 hs
      | (g1, some e) => (g1, some e)

def combineSetRows (other : Grid) : Grid → List PyVal → Grid × Option String
  | g, [] => (g, none)
  | g, h :: hs =>
    match rowValsE other h with
    | .error e => (g, some e)
    | .ok vs =>
      match setRow g h vs with
      | (g1, none) => combineSetRows other g1 hs
      | (g1, some e) => (g1, some e)

def combineSetCols (other : Grid) : Grid → List PyVal → Grid × Option String
  | g, [] => (g, none)
  | g, h :: hs =>
    match colValsE other h with
    | .error e => (g, some e)
    | .ok vs =>
      match setCol g h vs with
      | (g1, none) => combineSetCols other g1 hs
      | (g1, some e) => (g1, some e)

/-- `ConfigGrid.combine(other, overwrite=True)`.  The `overlap_rows` /
`overlap_cols` generators test membership lazily against the then-current
headings; since `set_row`/`set_col` never change the heading lists, filtering
once at the start of each pass is equivalent. -/
def combine (g other : Grid) (overwrite : Bool) : Grid × Option String :=
  if 0 < (other.row_headings.filter (fun h => !pyMem h g.row_headings)).length ∧
      0 < (other.col_headings.filter (fun h => !pyMem h g.col_headings)).length then
    (g, some "KeyError")
  else
    match combineAppendRows other g
        (other.row_headings.filter (fun h => !pyMem h g.row_headings)) with
    | (g1, some e) => (g1, some e)
    | (g1, none) =>
      match combineAppendCols other g1
          (other.col_headings.filter (fun h => !pyMem h g.col_headings)) with
      | (g2, some e) => (g2, some e)
      | (g2, none) =>
        if overwrite then
          match (if 0 < (other.row_headings.filter
                    (fun h => !pyMem h g.row_headings)).length then
                  combineSetRows other g2
                    (other.row_headings.filter (fun h => pyMem h g2.row_headings))
                else (g2, none)) with
          | (g3, some e) => (g3, some e)
          | (g3, none) =>
            if 0 < (other.col_headings.filter
                (fun h => !pyMem h g.col_headings)).length then
              combineSetCols other g3
                (other.col_headings.filter (fun h => pyMem h g3.col_headings))
            else (g3, none)
        else (g2, none)

/-- One side of Python `set(a) == set(b)`: every element of `a` is `==` to
some element of `b`. -/
def pySubset (a b : List PyVal) : Bool :=
  a.all (fun x => pyMem x b)

/-- `ConfigGrid.__eq__`: `set(self.row_headings) == set(other.row_headings)
and set(self.col_headings) == set(other.col_headings)`; Python set equality
is mutual `==`-inclusion. -/
def gridEq (g h : Grid) : Bool :=
  (pySubset g.row_headings h.row_headings && pySubset h.row_headings g.row_headings) &&
    (pySubset g.col_headings h.col_headings && pySubset h.col_headings g.col_headings)

/-! ## Tabular construction (`process_lines` / `from_lines`) -/

/-- The data-row loop of `process_lines`: each row yields its first entry as
the row heading and `zip(col_headings, row)` as cells (zip truncation: a
short row contributes fewer cells, a long row's extra values are dropped).
An empty row makes `row.__next__()` raise `StopIteration`, which escapes. -/
def processRows (col_headings : List PyVal) :
    List (List PyVal) → Except String (List PyVal × List (PyVal × PyVal × PyVal))
  | [] => .ok ([], [])
  | [] :: _ => .error "StopIteration"
  | (h :: vals) :: rest =>
    match processRows col_headings rest with
    | .error e => .error e
    | .ok (rh, data) =>
      .ok (h :: rh, (col_headings.zip vals).map (fun cv => (h, cv.1, cv.2)) ++ data)

/-- `ConfigGrid.process_lines`: `title, *col_headings = lines.__next__()`
(raising on an empty input or an empty first row), then the data-row loop. -/
def processLines (lines : List (List PyVal)) :
    Except String (List PyVal × List PyVal × List (PyVal × PyVal × PyVal) × PyVal) :=
  match lines with
  | [] => .error "StopIteration"
  | [] :: _ => .error "ValueError"
  | (title :: col_headings) :: rest =>
    match processRows col_headings rest with
    | .error e => .error e
    | .ok (rh, data) => .ok (rh, col_headings, data, title)

def setCellsFold : Grid → List (PyVal × PyVal × PyVal) → Grid × Option String
  | g, [] => (g, none)
  | g, (r, c, v) :: rest =>
    match setCell g r c v with
    | (g1, none) => setCellsFold g1 rest
    | (g1, some e) => (g1, some e)

/-- `ConfigGrid.from_lines`: `process_lines`, construction with the extracted
title (default value `""`), then one `__setitem__` per extracted cell
(`preprocess_value` is the identity in the base class). -/
def fromLines (lines : List (List PyVal)) : Except String Grid :=
  match processLines lines with
  | .error e => .error e
  | .ok (rh, ch, data, title) =>
    match gridInit rh ch (some title) (.str "") with
    | .error e => .error e
    | .ok g =>
      match setCellsFold g data with
      | (g1, none) => .ok g1
      | (_, some e) => .error e

/-- Well-formedness: the states reachable through the public constructors and
mutators.  `keysEq` is the claimed invariant (the key set of the row mapping
matches the row-label set); the distinctness fields record the `UniqueList`
guarantees and Python `dict` key uniqueness. -/
structure WF (g : Grid) : Prop where
  rowsDistinct : PyDistinct g.row_headings
  colsDistinct : PyDistinct g.col_headings
  keysEq : ∀ x, pyMem x (g.rows.map Prod.fst) = pyMem x g.row_headings
  keysDistinct : PyDistinct (g.rows.map Prod.fst)

/-! ## Dictionary lemmas -/

theorem pyLookup_congr {β : Type} {q q' : PyVal} (d : List (PyVal × β))
    (h : pyEq q q' = true) : pyLookup q d = pyLookup q' d := by
  induction d with
  | nil => rfl
  | cons e rest ih =>
    obtain ⟨ke, ve⟩ := e
    simp only [pyLookup]
    cases hk : pyEq ke q with
    | true =>
      rw [if_pos rfl, if_pos (pyEq_trans hk h)]
    | false =>
      rw [if_neg Bool.false_ne_true]
      cases hk' : pyEq ke q' with
      | true =>
        have : pyEq ke q = true := pyEq_trans hk' (pyEq_symm (a := q) ▸ h)
        rw [hk] at this; cases this
      | false =>
        rw [if_neg Bool.false_ne_true]
        exact ih

theorem pyLookup_dictSet_ne {β : Type} {q k : PyVal} {v : β} (d : List (PyVal × β))
    (h : pyEq k q = false) : pyLookup q (dictSet d k v) = pyLookup q d := by
  induction d with
  | nil =>
    simp only [dictSet, pyLookup]
    rw [if_neg]
    intro hc
    rw [hc] at h; cases h
  | cons e rest ih =>
    obtain ⟨ke, ve⟩ := e
    simp only [dictSet]
    cases hk : pyEq ke k with
    | true =>
      rw [if_pos rfl]
      simp only [pyLookup]
      have hkq : pyEq ke q = false := by
        cases hc : pyEq ke q with
        | false => rfl
        | true =>
          have : pyEq k q = true := pyEq_trans (pyEq_symm (a := ke) ▸ hk) hc
          rw [this] at h; cases h
      rw [if_neg (by simp [hkq]), if_neg (by simp [hkq])]
    | false =>
      rw [if_neg Bool.false_ne_true]
      simp only [pyLookup]
      cases hc : pyEq ke q with
      | true => rw [if_pos rfl, if_pos rfl]
      | false => rw [if_neg Bool.false_ne_true, if_neg Bool.false_ne_true]; exact ih

theorem pyLookup_dictSet_self {β : Type} {q k : PyVal} {v : β} (d : List (PyVal × β))
    (h : pyEq k q = true) : pyLookup q (dictSet d k v) = some v := by
  induction d with
  | nil =>
    simp only [dictSet, pyLookup]
    rw [if_pos h]
  | cons e rest ih =>
    obtain ⟨ke, ve⟩ := e
    simp only [dictSet]
    cases hk : pyEq ke k with
    | true =>
      rw [if_pos rfl]
      simp only [pyLookup]
      rw [if_pos (pyEq_trans hk h)]
    | false =>
      rw [if_neg Bool.false_ne_true]
      simp only [pyLookup]
      have hkq : pyEq ke q = false := by
        cases hc : pyEq ke q with
        | false => rfl
        | true =>
          have : pyEq ke k = true := pyEq_trans hc (pyEq_symm (a := k) ▸ h)
          rw [hk] at this; cases this
      rw [if_neg (by simp [hkq])]
      exact ih

theorem dictSet_keys_of_mem {β : Type} {k : PyVal} {v : β} (d : List (PyVal × β))
    (h : pyMem k (d.map Prod.fst) = true) :
    (dictSet d k v).map Prod.fst = d.map Prod.fst := by
  induction d with
  | nil => simp [pyMem] at h
  | cons e rest ih =>
    obtain ⟨ke, ve⟩ := e
    simp only [dictSet]
    cases hk : pyEq ke k with
    | true => rw [if_pos rfl]; rfl
    | false =>
      rw [if_neg Bool.false_ne_true]
      simp only [List.map_cons]
      rw [ih]
      rw [List.map_cons, pyMem_cons, hk] at h
      simpa using h

theorem dictSet_append_of_not_mem {β : Type} {k : PyVal} {v : β} (d : List (PyVal × β))
    (h : pyMem k (d.map Prod.fst) = false) :
    dictSet d k v = d ++ [(k, v)] := by
  induction d with
  | nil => rfl
  | cons e rest ih =>
    obtain ⟨ke, ve⟩ := e
    rw [List.map_cons, pyMem_cons] at h
    simp only [Bool.or_eq_false_iff] at h
    simp only [dictSet]
    rw [if_neg (by simp [h.1]), List.cons_append, ih h.2]

theorem pyLookup_dictModify_ne {β : Type} {q k : PyVal} {f : β → β} (d : List (PyVal × β))
    (h : pyEq k q = false) : pyLookup q (dictModify k f d) = pyLookup q d := by
  induction d with
  | nil => rfl
  | cons e rest ih =>
    obtain ⟨ke, ve⟩ := e
    simp only [dictModify]
    cases hk : pyEq ke k with
    | true =>
      rw [if_pos rfl]
      simp only [pyLookup]
      have hkq : pyEq ke q = false := by
        cases hc : pyEq ke q with
        | false => rfl
        | true =>
          have : pyEq k q = true := pyEq_trans (pyEq_symm (a := ke) ▸ hk) hc
          rw [this] at h; cases h
      rw [if_neg (by simp [hkq]), if_neg (by simp [hkq])]
    | false =>
      rw [if_neg Bool.false_ne_true]
      simp only [pyLookup]
      cases hc : pyEq ke q with
      | true => rw [if_pos rfl, if_pos rfl]
      | false => rw [if_neg Bool.false_ne_true, if_neg Bool.false_ne_true]; exact ih

theorem pyLookup_dictModify_self {β : Type} {q k : PyVal} {f : β → β} (d : List (PyVal × β))
    (h : pyEq k q = true) :
    pyLookup q (dictModify k f d) = (pyLookup q d).map f := by
  induction d with
  | nil => rfl
  | cons e rest ih =>
    obtain ⟨ke, ve⟩ := e
    simp only [dictModify]
    cases hk : pyEq ke k with
    | true =>
      rw [if_pos rfl]
      simp only [pyLookup]
      have : pyEq ke q = true := pyEq_trans hk h
      rw [if_pos this, if_pos this]
      rfl
    | false =>
      rw [if_neg Bool.false_ne_true]
      simp only [pyLookup]
      have hkq : pyEq ke q = false := by
        cases hc : pyEq ke q with
        | false => rfl
        | true =>
          have : pyEq ke k = true := pyEq_trans hc (pyEq_symm (a := k) ▸ h)
          rw [hk] at this; cases this
      rw [if_neg (by simp [hkq]), if_neg (by simp [hkq])]
      exact ih

theorem dictModify_keys {β : Type} (k : PyVal) (f : β → β) (d : List (PyVal × β)) :
    (dictModify k f d).map Prod.fst = d.map Prod.fst := by
  induction d with
  | nil => rfl
  | cons e rest ih =>
    obtain ⟨ke, ve⟩ := e
    simp only [dictModify]
    cases hk : pyEq ke k with
    | true => rw [if_pos rfl]; rfl
    | false =>
      rw [if_neg Bool.false_ne_true]
      simp only [List.map_cons, ih]

theorem pyLookup_isSome_eq {β : Type} (q : PyVal) (d : List (PyVal × β)) :
    (pyLookup q d).isSome = pyMem q (d.map Prod.fst) := by
  induction d with
  | nil => rfl
  | cons e rest ih =>
    obtain ⟨ke, ve⟩ := e
    simp only [pyLookup, List.map_cons, pyMem_cons]
    cases hk : pyEq ke q with
    | true => rw [if_pos rfl]; rfl
    | false =>
      rw [if_neg Bool.false_ne_true]
      simp only [Bool.false_or]
      exact ih

/-! ## `setCell` lemmas -/

/-- A cell write never changes the heading lists, the title, the defaults or
the key set of the row mapping (on failure it changes nothing at all). -/
theorem setCell_fields (g : Grid) (r c v : PyVal) :
    (setCell g r c v).1.title = g.title ∧ (setCell g r c v).1.dflt = g.dflt ∧
    (setCell g r c v).1.row_headings = g.row_headings ∧
    (setCell g r c v).1.col_headings = g.col_headings ∧
    (setCell g r c v).1.rows.map Prod.fst = g.rows.map Prod.fst := by
  unfold setCell
  cases pyLookup r g.rows with
  | some row =>
    by_cases h : pyMem c g.col_headings = true <;> simp [h, dictModify_keys]
  | none =>
    by_cases h : pyMem r g.row_headings = true <;> simp [h]

theorem setCell_ok {g : Grid} {r c : PyVal} (v : PyVal)
    (hrow : (pyLookup r g.rows).isSome = true) (hcol : pyMem c g.col_headings = true) :
    setCell g r c v =
      ({ g with
          rows := dictModify r (fun row => { row with entries := dictSet row.entries c v }) g.rows },
        none) := by
  unfold setCell
  cases hl : pyLookup r g.rows with
  | some row => rw [if_pos hcol]
  | none => rw [hl] at hrow; cases hrow

theorem getCell_setCell_frame (g : Grid) (r c v r' c' : PyVal)
    (hne : pyEq r r' = false ∨ pyEq c c' = false) :
    getCell (setCell g r c v).1 r' c' = getCell g r' c' := by
  unfold setCell
  cases hl : pyLookup r g.rows with
  | none =>
    by_cases h : pyMem r g.row_headings = true <;> simp [h]
  | some row =>
    by_cases h : pyMem c g.col_headings = true
    · rw [if_pos h]
      unfold getCell
      cases hrr : pyEq r r' with
      | false => rw [pyLookup_dictModify_ne _ hrr]
      | true =>
        have hcc : pyEq c c' = false := by
          rcases hne with h1 | h2
          · rw [hrr] at h1; cases h1
          · exact h2
        rw [pyLookup_dictModify_self _ hrr]
        cases hl' : pyLookup r' g.rows with
        | none => rfl
        | some row' =>
          simp only [Option.map_some']
          rw [pyLookup_dictSet_ne _ hcc]
    · rw [if_neg (by simp [h])]

theorem getCell_setCell_self {g : Grid} {r c : PyVal} (v : PyVal) {r' c' : PyVal}
    (hrow : (pyLookup r g.rows).isSome = true) (hcol : pyMem c g.col_headings = true)
    (hr : pyEq r r' = true) (hc : pyEq c c' = true) :
    getCell (setCell g r c v).1 r' c' = .ok v := by
  rw [setCell_ok v hrow hcol]
  unfold getCell
  rw [pyLookup_dictModify_self _ hr]
  have hrow' : (pyLookup r' g.rows).isSome = true := by
    rw [← pyLookup_congr g.rows hr]
    exact hrow
  cases hl : pyLookup r' g.rows with
  | none => rw [hl] at hrow'; cases hrow'
  | some row =>
    simp only [Option.map_some']
    rw [pyLookup_dictSet_self _ hc]

/-! ## Row-fill loop lemmas (`runRowCells`) -/

theorem runRowCells_fields (r : PyVal) :
    ∀ (g : Grid) (pairs : List (PyVal × PyVal)),
    (runRowCells r g pairs).1.title = g.title ∧
    (runRowCells r g pairs).1.dflt = g.dflt ∧
    (runRowCells r g pairs).1.row_headings = g.row_headings ∧
    (runRowCells r g pairs).1.col_headings = g.col_headings ∧
    (runRowCells r g pairs).1.rows.map Prod.fst = g.rows.map Prod.fst := by
  intro g pairs
  induction pairs generalizing g with
  | nil => exact ⟨rfl, rfl, rfl, rfl, rfl⟩
  | cons p rest ih =>
    obtain ⟨c, v⟩ := p
    simp only [runRowCells]
    cases hs : setCell g r c v with
    | mk g1 err =>
      have hf := setCell_fields g r c v
      rw [hs] at hf
      cases err with
      | none =>
        obtain ⟨f1, f2, f3, f4, f5⟩ := ih g1
        exact ⟨f1.trans hf.1, f2.trans hf.2.1, f3.trans hf.2.2.1,
          f4.trans hf.2.2.2.1, f5.trans hf.2.2.2.2⟩
      | some e => exact hf

theorem runRowCells_snd_none (r : PyVal) :
    ∀ (g : Grid) (pairs : List (PyVal × PyVal)),
    (pyLookup r g.rows).isSome = true →
    (∀ p ∈ pairs, pyMem p.1 g.col_headings = true) →
    (runRowCells r g pairs).2 = none := by
  intro g pairs
  induction pairs generalizing g with
  | nil => intro _ _; rfl
  | cons p rest ih =>
    intro hrow hcols
    obtain ⟨c, v⟩ := p
    simp only [runRowCells]
    cases hs : setCell g r c v with
    | mk g1 err =>
      have hok := setCell_ok v hrow (hcols (c, v) (by simp))
      rw [hs, Prod.mk.injEq] at hok
      obtain ⟨hg1, herr⟩ := hok
      subst herr
      show (runRowCells r g1 rest).2 = none
      apply ih
      · rw [pyLookup_isSome_eq, hg1]
        show pyMem r ((dictModify r
          (fun row => { row with entries := dictSet row.entries c v }) g.rows).map Prod.fst) = true
        rw [dictModify_keys, ← pyLookup_isSome_eq]
        exact hrow
      · intro p hp
        have hc4 : (setCell g r c v).1.col_headings = g.col_headings :=
          (setCell_fields g r c v).2.2.2.1
        rw [hs] at hc4
        rw [show g1.col_headings = g.col_headings from hc4]
        exact hcols p (by simp [hp])

theorem runRowCells_frame (r : PyVal) :
    ∀ (g : Grid) (pairs : List (PyVal × PyVal)) (r' c' : PyVal),
    (pyEq r r' = false ∨ (∀ p ∈ pairs, pyEq p.1 c' = false)) →
    getCell (runRowCells r g pairs).1 r' c' = getCell g r' c' := by
  intro g pairs
  induction pairs generalizing g with
  | nil => intro r' c' _; rfl
  | cons p rest ih =>
    intro r' c' hne
    obtain ⟨c, v⟩ := p
    simp only [runRowCells]
    have hstep : getCell (setCell g r c v).1 r' c' = getCell g r' c' := by
      apply getCell_setCell_frame
      rcases hne with h1 | h2
      · exact Or.inl h1
      · exact Or.inr (h2 (c, v) (by simp))
    cases hs : setCell g r c v with
    | mk g1 err =>
      rw [hs] at hstep
      cases err with
      | none =>
        show getCell (runRowCells r g1 rest).1 r' c' = getCell g r' c'
        rw [ih g1 r' c' ?_]
        · exact hstep
        · rcases hne with h1 | h2
          · exact Or.inl h1
          · exact Or.inr (fun p hp => h2 p (by simp [hp]))
      | some e => exact hstep

theorem runRowCells_get (r : PyVal) :
    ∀ (g : Grid) (pairs : List (PyVal × PyVal)) (j : Nat) (hj : j < pairs.length),
    (pyLookup r g.rows).isSome = true →
    (∀ p ∈ pairs, pyMem p.1 g.col_headings = true) →
    PyDistinct (pairs.map Prod.fst) →
    getCell (runRowCells r g pairs).1 r (pairs[j].1) = .ok (pairs[j].2) := by
  intro g pairs
  induction pairs generalizing g with
  | nil => intro j hj; cases hj
  | cons p rest ih =>
    intro j hj hrow hcols hdist
    obtain ⟨c, v⟩ := p
    simp only [runRowCells]
    cases hs : setCell g r c v with
    | mk g1 err =>
      have hok := setCell_ok v hrow (hcols (c, v) (by simp))
      rw [hs, Prod.mk.injEq] at hok
      obtain ⟨hg1, herr⟩ := hok
      subst herr
      have hrow1 : (pyLookup r g1.rows).isSome = true := by
        rw [pyLookup_isSome_eq, hg1]
        show pyMem r ((dictModify r
          (fun row => { row with entries := dictSet row.entries c v }) g.rows).map Prod.fst) = true
        rw [dictModify_keys, ← pyLookup_isSome_eq]
        exact hrow
      have hcols1 : g1.col_headings = g.col_headings := by
        have hc4 : (setCell g r c v).1.col_headings = g.col_headings :=
          (setCell_fields g r c v).2.2.2.1
        rw [hs] at hc4
        exact hc4
      cases j with
      | zero =>
        simp only [List.getElem_cons_zero]
        show getCell (runRowCells r g1 rest).1 r c = Except.ok v
        rw [runRowCells_frame r g1 rest r c ?_]
        · have hself := getCell_setCell_self (g := g) (r := r) (c := c) v hrow
            (hcols (c, v) (by simp)) (pyEq_refl r) (pyEq_refl c)
          rw [hs] at hself
          exact hself
        · right
          intro p hp
          have := (List.pairwise_cons.mp hdist).1 p.1 (by simp; exact ⟨p.2, hp⟩)
          rw [pyEq_symm]
          exact this
      | succ j' =>
        have hj' : j' < rest.length := by simpa using hj
        simp only [List.getElem_cons_succ]
        show getCell (runRowCells r g1 rest).1 r (rest[j'].1) = Except.ok (rest[j'].2)
        apply ih g1 j' hj' hrow1
        · intro p hp
          rw [hcols1]
          exact hcols p (by simp [hp])
        · exact (List.pairwise_cons.mp hdist).2

/-! ## Column-fill loop lemmas (`runColCells`) -/

theorem runColCells_fields (c : PyVal) :
    ∀ (g : Grid) (pairs : List (PyVal × PyVal)),
    (runColCells c g pairs).1.title = g.title ∧
    (runColCells c g pairs).1.dflt = g.dflt ∧
    (runColCells c g pairs).1.row_headings = g.row_headings ∧
    (runColCells c g pairs).1.col_headings = g.col_headings ∧
    (runColCells c g pairs).1.rows.map Prod.fst = g.rows.map Prod.fst := by
  intro g pairs
  induction pairs generalizing g with
  | nil => exact ⟨rfl, rfl, rfl, rfl, rfl⟩
  | cons p rest ih =>
    obtain ⟨r, v⟩ := p
    simp only [runColCells]
    cases hs : setCell g r c v with
    | mk g1 err =>
      have hf := setCell_fields g r c v
      rw [hs] at hf
      cases err with
      | none =>
        obtain ⟨f1, f2, f3, f4, f5⟩ := ih g1
        exact ⟨f1.trans hf.1, f2.trans hf.2.1, f3.trans hf.2.2.1,
          f4.trans hf.2.2.2.1, f5.trans hf.2.2.2.2⟩
      | some e => exact hf

theorem runColCells_snd_none (c : PyVal) :
    ∀ (g : Grid) (pairs : List (PyVal × PyVal)),
    pyMem c g.col_headings = true →
    (∀ p ∈ pairs, (pyLookup p.1 g.rows).isSome = true) →
    (runColCells c g pairs).2 = none := by
  intro g pairs
  induction pairs generalizing g with
  | nil => intro _ _; rfl
  | cons p rest ih =>
    intro hcol hrows
    obtain ⟨r, v⟩ := p
    simp only [runColCells]
    cases hs : setCell g r c v with
    | mk g1 err =>
      have hok := setCell_ok v (hrows (r, v) (by simp)) hcol
      rw [hs, Prod.mk.injEq] at hok
      obtain ⟨hg1, herr⟩ := hok
      subst herr
      show (runColCells c g1 rest).2 = none
      have hf := setCell_fields g r c v
      rw [hs] at hf
      apply ih
      · rw [hf.2.2.2.1]; exact hcol
      · intro p hp
        rw [pyLookup_isSome_eq, hf.2.2.2.2, ← pyLookup_isSome_eq]
        exact hrows p (by simp [hp])

theorem runColCells_frame (c : PyVal) :
    ∀ (g : Grid) (pairs : List (PyVal × PyVal)) (r' c' : PyVal),
    (pyEq c c' = false ∨ (∀ p ∈ pairs, pyEq p.1 r' = false)) →
    getCell (runColCells c g pairs).1 r' c' = getCell g r' c' := by
  intro g pairs
  induction pairs generalizing g with
  | nil => intro r' c' _; rfl
  | cons p rest ih =>
    intro r' c' hne
    obtain ⟨r, v⟩ := p
    simp only [runColCells]
    have hstep : getCell (setCell g r c v).1 r' c' = getCell g r' c' := by
      apply getCell_setCell_frame
      rcases hne with h1 | h2
      · exact Or.inr h1
      · exact Or.inl (h2 (r, v) (by simp))
    cases hs : setCell g r c v with
    | mk g1 err =>
      rw [hs] at hstep
      cases err with
      | none =>
        show getCell (runColCells c g1 rest).1 r' c' = getCell g r' c'
        rw [ih g1 r' c' ?_]
        · exact hstep
        · rcases hne with h1 | h2
          · exact Or.inl h1
          · exact Or.inr (fun p hp => h2 p (by simp [hp]))
      | some e => exact hstep

theorem runColCells_get (c : PyVal) :
    ∀ (g : Grid) (pairs : List (PyVal × PyVal)) (j : Nat) (hj : j < pairs.length),
    pyMem c g.col_headings = true →
    (∀ p ∈ pairs, (pyLookup p.1 g.rows).isSome = true) →
    PyDistinct (pairs.map Prod.fst) →
    getCell (runColCells c g pairs).1 (pairs[j].1) c = .ok (pairs[j].2) := by
  intro g pairs
  induction pairs generalizing g with
  | nil => intro j hj; cases hj
  | cons p rest ih =>
    intro j hj hcol hrows hdist
    obtain ⟨r, v⟩ := p
    simp only [runColCells]
    cases hs : setCell g r c v with
    | mk g1 err =>
      have hok := setCell_ok v (hrows (r, v) (by simp)) hcol
      rw [hs, Prod.mk.injEq] at hok
      obtain ⟨hg1, herr⟩ := hok
      subst herr
      have hf := setCell_fields g r c v
      rw [hs] at hf
      have hcol1 : pyMem c g1.col_headings = true := by
        rw [hf.2.2.2.1]; exact hcol
      have hrows1 : ∀ p ∈ rest, (pyLookup p.1 g1.rows).isSome = true := by
        intro p hp
        rw [pyLookup_isSome_eq, hf.2.2.2.2, ← pyLookup_isSome_eq]
        exact hrows p (by simp [hp])
      cases j with
      | zero =>
        simp only [List.getElem_cons_zero]
        show getCell (runColCells c g1 rest).1 r c = Except.ok v
        rw [runColCells_frame c g1 rest r c ?_]
        · have hself := getCell_setCell_self (g := g) (r := r) (c := c) v
            (hrows (r, v) (by simp)) hcol (pyEq_refl r) (pyEq_refl c)
          rw [hs] at hself
          exact hself
        · right
          intro p hp
          have := (List.pairwise_cons.mp hdist).1 p.1 (by simp; exact ⟨p.2, hp⟩)
          rw [pyEq_symm]
          exact this
      | succ j' =>
        have hj' : j' < rest.length := by simpa using hj
        simp only [List.getElem_cons_succ]
        show getCell (runColCells c g1 rest).1 (rest[j'].1) c = Except.ok (rest[j'].2)
        apply ih g1 j' hj' hcol1 hrows1
        exact (List.pairwise_cons.mp hdist).2

/-! ## Claim C10 — construction without an explicit title -/

/-- **C10.** With `title` omitted or `None`, `__init__` evaluates
`self.__name__`, an attribute that instances of the class do not possess, so
direct construction fails with `AttributeError` for every pair of label
sequences, before any grid is produced; with an explicit title it can
succeed (shown at a concrete input). -/
theorem gridInit_title_spec :
    (∀ (rh ch : List PyVal) (d : PyVal), gridInit rh ch none d = .error "AttributeError") ∧
    gridInit [PyVal.str "r"] [PyVal.str "c"] (some (PyVal.str "t")) (PyVal.str "") =
      .ok { title := PyVal.str "t", dflt := PyVal.str "",
            row_headings := [PyVal.str "r"], col_headings := [PyVal.str "c"],
            rows := [(PyVal.str "r", { entries := [], dflt := PyVal.str "" })] } := by
  exact ⟨fun rh ch d => rfl, rfl⟩

/-! ## Claim C9 — grid equality compares label sets only -/

theorem pyMem_of_pySubset {a b : List PyVal} {x : PyVal}
    (hsub : pySubset a b = true) (hx : pyMem x a = true) : pyMem x b = true := by
  obtain ⟨e, he, hee⟩ := pyMem_iff_exists.mp hx
  have hmem : pyMem e b = true := by
    rw [pySubset, List.all_eq_true] at hsub
    exact hsub e he
  obtain ⟨f, hf, hfe⟩ := pyMem_iff_exists.mp hmem
  exact pyMem_iff_exists.mpr ⟨f, hf, pyEq_trans hfe hee⟩

theorem pySubset_self (a : List PyVal) : pySubset a a = true := by
  rw [pySubset, List.all_eq_true]
  intro e he
  exact pyMem_iff_exists.mpr ⟨e, he, pyEq_refl e⟩

theorem pySubset_both_iff {a b : List PyVal} :
    (pySubset a b && pySubset b a) = true ↔ ∀ x, pyMem x a = pyMem x b := by
  constructor
  · intro h x
    rw [Bool.and_eq_true] at h
    cases hx : pyMem x a with
    | true => exact (pyMem_of_pySubset h.1 hx).symm
    | false =>
      cases hx' : pyMem x b with
      | false => rfl
      | true =>
        have := pyMem_of_pySubset h.2 hx'
        rw [hx] at this; cases this
  · intro h
    rw [Bool.and_eq_true]
    constructor
    · rw [pySubset, List.all_eq_true]
      intro e he
      rw [← h e]
      exact pyMem_iff_exists.mpr ⟨e, he, pyEq_refl e⟩
    · rw [pySubset, List.all_eq_true]
      intro e he
      rw [h e]
      exact pyMem_iff_exists.mpr ⟨e, he, pyEq_refl e⟩

/-- **C9.** `==` on grids holds exactly when the two row-label lists contain
the same elements up to Python equality and likewise the two column-label
lists: cell values, titles, defaults and label order are all ignored (any
grid sharing the very same heading lists compares equal whatever its values),
and a column label present in one grid but matching nothing in the other
forces inequality. -/
theorem gridEq_spec (g h : Grid) :
    (gridEq g h = true ↔
      ((∀ x, pyMem x g.row_headings = pyMem x h.row_headings) ∧
       (∀ x, pyMem x g.col_headings = pyMem x h.col_headings))) ∧
    (∀ g2 : Grid, g2.row_headings = g.row_headings → g2.col_headings = g.col_headings →
      gridEq g g2 = true) ∧
    (∀ c, pyMem c h.col_headings = true → pyMem c g.col_headings = false →
      gridEq g h = false) := by
  have hiff : gridEq g h = true ↔
      ((∀ x, pyMem x g.row_headings = pyMem x h.row_headings) ∧
       (∀ x, pyMem x g.col_headings = pyMem x h.col_headings)) := by
    rw [gridEq, Bool.and_eq_true]
    rw [pySubset_both_iff, pySubset_both_iff]
  refine ⟨hiff, ?_, ?_⟩
  · intro g2 hr hc
    rw [gridEq, Bool.and_eq_true, pySubset_both_iff, pySubset_both_iff]
    constructor
    · intro x; rw [hr]
    · intro x; rw [hc]
  · intro c hmem hnot
    cases he : gridEq g h with
    | false => rfl
    | true =>
      have := (hiff.mp he).2 c
      rw [hmem, hnot] at this
      cases this

def c9gA : Grid :=
  { title := PyVal.str "A", dflt := PyVal.str "",
    row_headings := [PyVal.str "R"], col_headings := [PyVal.str "C"],
    rows := [(PyVal.str "R", { entries := [(PyVal.str "C", PyVal.int 1)], dflt := PyVal.str "" })] }

def c9gB : Grid :=
  { title := PyVal.str "B", dflt := PyVal.str "",
    row_headings := [PyVal.str "R"], col_headings := [PyVal.str "C"],
    rows := [(PyVal.str "R", { entries := [(PyVal.str "C", PyVal.int 99)], dflt := PyVal.str "" })] }

def c9gC : Grid :=
  { title := PyVal.str "A", dflt := PyVal.str "",
    row_headings := [PyVal.str "R"], col_headings := [PyVal.str "C", PyVal.str "D"],
    rows := [(PyVal.str "R", { entries := [(PyVal.str "C", PyVal.int 1)], dflt := PyVal.str "" })] }

/-- **C9, witness**: two grids with identical label sets and entirely
different values compare equal; adding one extra column makes them unequal. -/
theorem gridEq_spec_witness : gridEq c9gA c9gB = true ∧ gridEq c9gA c9gC = false :=
  ⟨(gridEq_spec c9gA c9gB).2.1 c9gB rfl rfl,
   (gridEq_spec c9gA c9gC).2.2 (PyVal.str "D") (by decide) (by decide)⟩

/-! ## Claim C4 — conflicting-shape failure leaves the grid untouched -/

/-- **C4.** When `other` brings at least one new row label and at least one
new column label, `combine` raises the `ConflictingShape` error (`KeyError`)
immediately: the returned state is exactly the receiver, so row labels,
column labels and every cell value are unchanged. -/
theorem combine_conflicting_shape (g other : Grid) (ow : Bool)
    (hr : ∃ r ∈ other.row_headings, pyMem r g.row_headings = false)
    (hc : ∃ c ∈ other.col_headings, pyMem c g.col_headings = false) :
    combine g other ow = (g, some "KeyError") := by
  have h1 : 0 < (other.row_headings.filter (fun h => !pyMem h g.row_headings)).length := by
    obtain ⟨r, hr1, hr2⟩ := hr
    exact List.length_pos_of_mem (List.mem_filter.mpr ⟨hr1, by simp [hr2]⟩)
  have h2 : 0 < (other.col_headings.filter (fun h => !pyMem h g.col_headings)).length := by
    obtain ⟨c, hc1, hc2⟩ := hc
    exact List.length_pos_of_mem (List.mem_filter.mpr ⟨hc1, by simp [hc2]⟩)
  simp only [combine]
  rw [if_pos ⟨h1, h2⟩]

def c4gA : Grid :=
  { title := PyVal.str "A", dflt := PyVal.str "",
    row_headings := [PyVal.str "R1"], col_headings := [PyVal.str "C1"],
    rows := [(PyVal.str "R1", { entries := [(PyVal.str "C1", PyVal.int 1)], dflt := PyVal.str "" })] }

def c4gB : Grid :=
  { title := PyVal.str "B", dflt := PyVal.str "",
    row_headings := [PyVal.str "R1", PyVal.str "R2"],
    col_headings := [PyVal.str "C1", PyVal.str "C2"],
    rows := [(PyVal.str "R1", { entries := [(PyVal.str "C1", PyVal.int 5)], dflt := PyVal.str "" }),
             (PyVal.str "R2", { entries := [(PyVal.str "C2", PyVal.int 6)], dflt := PyVal.str "" })] }

/-- **C4, witness** at a concrete input. -/
theorem combine_conflicting_shape_witness :
    combine c4gA c4gB true = (c4gA, some "KeyError") :=
  combine_conflicting_shape c4gA c4gB true
    ⟨PyVal.str "R2", by decide, by decide⟩
    ⟨PyVal.str "C2", by decide, by decide⟩

/-! ## Tabular construction lemmas (towards C3 and C5) -/

/-- Row label extracted by `process_lines` from a (nonempty) data row. -/
def labelOf (r : List PyVal) : PyVal := r.headD (PyVal.str "")

/-- The cells `process_lines` extracts from one data row: `zip` truncation
against the column labels. -/
def dataOf (cols : List PyVal) (r : List PyVal) : List (PyVal × PyVal × PyVal) :=
  (cols.zip r.tail).map (fun cv => (labelOf r, cv.1, cv.2))

theorem processRows_ok (cols : List PyVal) :
    ∀ (rows : List (List PyVal)), (∀ r ∈ rows, r ≠ []) →
    processRows cols rows = .ok (rows.map labelOf, (rows.map (dataOf cols)).flatten) := by
  intro rows
  induction rows with
  | nil => intro _; rfl
  | cons r rest ih =>
    intro hne
    cases r with
    | nil => exact absurd rfl (hne [] (by simp))
    | cons h t =>
      simp only [processRows]
      rw [ih (fun r hr => hne r (by simp [hr]))]
      simp only [List.map_cons, List.flatten_cons]
      rfl

theorem foldl_dictSet_fresh (dflt : PyVal) :
    ∀ (rh : List PyVal) (acc : List (PyVal × LineRow)),
    PyDistinct rh → (∀ r ∈ rh, pyMem r (acc.map Prod.fst) = false) →
    rh.foldl (fun d r => dictSet d r ⟨[], dflt⟩) acc =
      acc ++ rh.map (fun r => (r, ⟨[], dflt⟩)) := by
  intro rh
  induction rh with
  | nil => intro acc _ _; simp
  | cons r rest ih =>
    intro acc hdist hfresh
    simp only [List.foldl_cons]
    rw [dictSet_append_of_not_mem _ (hfresh r (by simp))]
    have hfresh' : ∀ e ∈ rest,
        pyMem e ((acc ++ [(r, ({ entries := [], dflt := dflt } : LineRow))]).map Prod.fst)
          = false := by
      intro e he
      rw [List.map_append, pyMem_append]
      have hm1 : pyMem e (acc.map Prod.fst) = false := hfresh e (by simp [he])
      have hm2 : pyEq r e = false := (List.pairwise_cons.mp hdist).1 e he
      simp only [hm1, List.map_cons, List.map_nil, pyMem_cons, hm2]
      rfl
    rw [ih (acc ++ [(r, ({ entries := [], dflt := dflt } : LineRow))])
      (List.pairwise_cons.mp hdist).2 hfresh']
    simp

theorem gridInit_some_ok {rh ch : List PyVal} (t dflt : PyVal)
    (h1 : PyDistinct rh) (h2 : PyDistinct ch) :
    gridInit rh ch (some t) dflt =
      .ok { title := t, dflt := dflt, row_headings := rh, col_headings := ch,
            rows := rh.map (fun r => (r, ⟨[], dflt⟩)) } := by
  have hbody : gridInit rh ch (some t) dflt =
      (if checkStillUnique rh = true then
        if checkStillUnique ch = true then
          Except.ok { title := t, dflt := dflt, row_headings := rh, col_headings := ch,
                      rows := rh.foldl (fun d r => dictSet d r ⟨[], dflt⟩) [] }
        else Except.error "ValueError"
      else Except.error "ValueError") := rfl
  rw [hbody, if_pos (checkStillUnique_iff.mpr h1), if_pos (checkStillUnique_iff.mpr h2),
    foldl_dictSet_fresh dflt rh [] h1 (fun r _ => rfl)]
  rfl

theorem setCellsFold_append :
    ∀ (d1 d2 : List (PyVal × PyVal × PyVal)) (g : Grid),
    setCellsFold g (d1 ++ d2) =
      match setCellsFold g d1 with
      | (g1, none) => setCellsFold g1 d2
      | (g1, some e) => (g1, some e) := by
  intro d1
  induction d1 with
  | nil => intro d2 g; rfl
  | cons p rest ih =>
    intro d2 g
    obtain ⟨r, c, v⟩ := p
    simp only [List.cons_append, setCellsFold]
    cases hs : setCell g r c v with
    | mk g1 err =>
      cases err with
      | none => exact ih d2 g1
      | some e => rfl

theorem setCellsFold_rowBlock (h : PyVal) :
    ∀ (pairs : List (PyVal × PyVal)) (g : Grid),
    setCellsFold g (pairs.map (fun cv => (h, cv.1, cv.2))) = runRowCells h g pairs := by
  intro pairs
  induction pairs with
  | nil => intro g; rfl
  | cons p rest ih =>
    intro g
    obtain ⟨c, v⟩ := p
    simp only [List.map_cons, setCellsFold, runRowCells]
    cases hs : setCell g h c v with
    | mk g1 err =>
      cases err with
      | none => exact ih g1
      | some e => rfl

theorem pyDistinct_zip_keys {cols : List PyVal} (t : List PyVal) (h : PyDistinct cols) :
    PyDistinct ((cols.zip t).map Prod.fst) := by
  rw [PyDistinct, List.pairwise_iff_getElem]
  intro i j hi hj hij
  have hlen : ((cols.zip t).map Prod.fst).length = (cols.zip t).length := by
    simp
  have hzi : i < (cols.zip t).length := hlen ▸ hi
  have hzj : j < (cols.zip t).length := hlen ▸ hj
  have hci : i < cols.length := by
    rw [List.length_zip] at hzi
    omega
  have hcj : j < cols.length := by
    rw [List.length_zip] at hzj
    omega
  have e1 : ((cols.zip t).map Prod.fst)[i] = cols[i] := by
    rw [List.getElem_map, List.getElem_zip]
  have e2 : ((cols.zip t).map Prod.fst)[j] = cols[j] := by
    rw [List.getElem_map, List.getElem_zip]
  rw [e1, e2]
  exact pyDistinct_idx h i j hci hcj (by omega)

theorem zip_keys_mem {cols t : List PyVal} {p : PyVal × PyVal} (hp : p ∈ cols.zip t) :
    p.1 ∈ cols :=
  (List.of_mem_zip (show (p.1, p.2) ∈ cols.zip t by simpa using hp)).1

/-- Combined specification of the cell-filling loop of `from_lines` over a
list of data rows: it succeeds, changes no structural field, leaves rows with
unrelated labels untouched, and stores each row's zip-truncated values. -/
theorem foldRows_spec (cols : List PyVal) (hcols : PyDistinct cols) :
    ∀ (rows : List (List PyVal)) (g : Grid),
    g.col_headings = cols →
    (∀ r ∈ rows, (pyLookup (labelOf r) g.rows).isSome = true) →
    PyDistinct (rows.map labelOf) →
    (setCellsFold g ((rows.map (dataOf cols)).flatten)).2 = none ∧
    (setCellsFold g ((rows.map (dataOf cols)).flatten)).1.title = g.title ∧
    (setCellsFold g ((rows.map (dataOf cols)).flatten)).1.dflt = g.dflt ∧
    (setCellsFold g ((rows.map (dataOf cols)).flatten)).1.row_headings = g.row_headings ∧
    (setCellsFold g ((rows.map (dataOf cols)).flatten)).1.col_headings = g.col_headings ∧
    (setCellsFold g ((rows.map (dataOf cols)).flatten)).1.rows.map Prod.fst
      = g.rows.map Prod.fst ∧
    (∀ r' c', (∀ r ∈ rows, pyEq (labelOf r) r' = false) →
      getCell (setCellsFold g ((rows.map (dataOf cols)).flatten)).1 r' c' = getCell g r' c') ∧
    (∀ r ∈ rows, ∀ j, ∀ (hj : j < cols.length),
      (j < r.tail.length →
        getCell (setCellsFold g ((rows.map (dataOf cols)).flatten)).1 (labelOf r) cols[j] =
          .ok (r.tail.getD j (PyVal.str ""))) ∧
      (r.tail.length ≤ j →
        getCell (setCellsFold g ((rows.map (dataOf cols)).flatten)).1 (labelOf r) cols[j] =
          getCell g (labelOf r) cols[j])) := by
  intro rows
  induction rows with
  | nil =>
    intro g _ _ _
    exact ⟨rfl, rfl, rfl, rfl, rfl, rfl, fun _ _ _ => rfl, fun r hr => absurd hr (by simp)⟩
  | cons r0 rest ih =>
    intro g hcg hlook hdist
    have hpairsmem : ∀ p ∈ cols.zip r0.tail, pyMem p.1 g.col_headings = true := by
      intro p hp
      rw [hcg]
      exact pyMem_iff_exists.mpr ⟨p.1, zip_keys_mem hp, pyEq_refl _⟩
    have hlook0 : (pyLookup (labelOf r0) g.rows).isSome = true := hlook r0 (by simp)
    have hblock2 : (runRowCells (labelOf r0) g (cols.zip r0.tail)).2 = none :=
      runRowCells_snd_none _ g _ hlook0 hpairsmem
    have hsplit : setCellsFold g (((r0 :: rest).map (dataOf cols)).flatten) =
        setCellsFold (runRowCells (labelOf r0) g (cols.zip r0.tail)).1
          ((rest.map (dataOf cols)).flatten) := by
      simp only [List.map_cons, List.flatten_cons]
      rw [setCellsFold_append]
      rw [show setCellsFold g (dataOf cols r0)
            = runRowCells (labelOf r0) g (cols.zip r0.tail) from
          setCellsFold_rowBlock (labelOf r0) (cols.zip r0.tail) g]
      cases hb : runRowCells (labelOf r0) g (cols.zip r0.tail) with
      | mk g1 err =>
        rw [hb] at hblock2
        simp only [] at hblock2
        subst hblock2
        rfl
    have hfB := runRowCells_fields (labelOf r0) g (cols.zip r0.tail)
    have hrest_look : ∀ r ∈ rest,
        (pyLookup (labelOf r) (runRowCells (labelOf r0) g (cols.zip r0.tail)).1.rows).isSome
          = true := by
      intro r hr
      rw [pyLookup_isSome_eq, hfB.2.2.2.2, ← pyLookup_isSome_eq]
      exact hlook r (by simp [hr])
    have hdist0 : (∀ a ∈ rest, pyEq (labelOf r0) (labelOf a) = false) ∧
        PyDistinct (rest.map labelOf) := by
      have hd := hdist
      rw [PyDistinct, List.map_cons, List.pairwise_cons] at hd
      exact ⟨fun a ha => hd.1 (labelOf a) (List.mem_map_of_mem labelOf ha), hd.2⟩
    have ihall := ih (runRowCells (labelOf r0) g (cols.zip r0.tail)).1
      (hfB.2.2.2.1.trans hcg) hrest_look hdist0.2
    obtain ⟨i1, i2, i3, i4, i5, i6, iframe, icells⟩ := ihall
    rw [hsplit]
    have hframe0 : ∀ c', getCell (setCellsFold
        (runRowCells (labelOf r0) g (cols.zip r0.tail)).1
        ((rest.map (dataOf cols)).flatten)).1 (labelOf r0) c' =
        getCell (runRowCells (labelOf r0) g (cols.zip r0.tail)).1 (labelOf r0) c' := by
      intro c'
      apply iframe
      intro r hr
      rw [pyEq_symm]
      exact hdist0.1 r hr
    refine ⟨i1, i2.trans hfB.1, i3.trans hfB.2.1, i4.trans hfB.2.2.1,
      i5.trans hfB.2.2.2.1, i6.trans hfB.2.2.2.2, ?_, ?_⟩
    · -- frame across the whole fold
      intro r' c' hall
      rw [iframe r' c' (fun r hr => hall r (by simp [hr]))]
      rw [runRowCells_frame _ g _ r' c' (Or.inl (hall r0 (by simp)))]
    · -- per-row cell values
      intro r hr j hj
      rcases List.mem_cons.mp hr with rfl | hrmem
      · -- the head row
        constructor
        · intro hjt
          rw [hframe0]
          have hjz : j < (cols.zip r.tail).length := by
            rw [List.length_zip]
            omega
          have := runRowCells_get (labelOf r) g (cols.zip r.tail) j hjz hlook0 hpairsmem
            (pyDistinct_zip_keys r.tail hcols)
          rw [List.getElem_zip] at this
          rw [this]
          rw [List.getD_eq_getElem r.tail (PyVal.str "") hjt]
        · intro hjt
          rw [hframe0]
          apply runRowCells_frame
          right
          intro p hp
          obtain ⟨k, hk, hpk⟩ := List.mem_iff_getElem.mp hp
          have hkz := hk
          rw [List.length_zip] at hkz
          have hkc : k < cols.length := by omega
          have : p.1 = cols[k] := by
            rw [← hpk, List.getElem_zip]
          rw [this]
          exact pyDistinct_idx hcols k j hkc hj (by omega)
      · -- a later row
        have hcell := icells r hrmem j hj
        constructor
        · intro hjt
          exact (hcell.1 hjt)
        · intro hjt
          rw [hcell.2 hjt]
          apply runRowCells_frame
          left
          exact hdist0.1 r hrmem

theorem pyLookup_map_const {labels : List PyVal} {x : PyVal} {row : LineRow}
    (h : pyMem x labels = true) :
    pyLookup x (labels.map (fun l => (l, row))) = some row := by
  induction labels with
  | nil => rw [pyMem] at h; cases h
  | cons l rest ih =>
    simp only [List.map_cons, pyLookup]
    cases hl : pyEq l x with
    | true => rw [if_pos rfl]
    | false =>
      rw [if_neg Bool.false_ne_true]
      apply ih
      rw [pyMem_cons, hl] at h
      simpa using h

/-! ## Claim C3 — short and long data rows in `from_lines` -/

def c3lines : List (List PyVal) :=
  [[PyVal.str "T", PyVal.str "X", PyVal.str "Y"],
   [PyVal.str "R", PyVal.int 1]]

def c3grid : Grid :=
  { title := PyVal.str "T", dflt := PyVal.str "",
    row_headings := [PyVal.str "R"],
    col_headings := [PyVal.str "X", PyVal.str "Y"],
    rows := [(PyVal.str "R",
      { entries := [(PyVal.str "X", PyVal.int 1)], dflt := PyVal.str "" })] }

/-- **C3, counterexample.** A data row with fewer entries than there are
column labels does **not** make `from_lines` fail: on
`[["T","X","Y"], ["R", 1]]` (row `R` supplies a value for `X` only)
construction succeeds, and the missing cell `("R","Y")` reads back as the
default `""`. -/
theorem fromLines_short_row_cex :
    fromLines c3lines = .ok c3grid ∧
    getCell c3grid (PyVal.str "R") (PyVal.str "Y") = .ok (PyVal.str "") := by
  exact ⟨rfl, rfl⟩

/-- **C3, amended.** For a tabular input whose first row is
`[title, col_1, ..., col_n]` (distinct column labels, distinct and nonempty
data rows), `from_lines` **never** fails on account of row length: a data row
with fewer value entries than column labels yields a grid whose missing
trailing cells read as the default `""`, and entries beyond the column count
are silently dropped (`zip` truncation); every stored cell reads back
positionally. -/
theorem fromLines_spec (title : PyVal) (cols : List PyVal) (rows : List (List PyVal))
    (hrows : ∀ r ∈ rows, r ≠ [])
    (hlabels : PyDistinct (rows.map labelOf))
    (hcols : PyDistinct cols) :
    ∃ g, fromLines ((title :: cols) :: rows) = .ok g ∧
      g.row_headings = rows.map labelOf ∧
      g.col_headings = cols ∧
      (∀ r ∈ rows, ∀ j, ∀ (hj : j < cols.length),
        getCell g (labelOf r) cols[j] = .ok (r.tail.getD j (PyVal.str ""))) := by
  have hpl : processLines ((title :: cols) :: rows) =
      .ok (rows.map labelOf, cols, (rows.map (dataOf cols)).flatten, title) := by
    show (match processRows cols rows with
      | .error e => Except.error e
      | .ok (rh, data) =>
        (Except.ok (rh, cols, data, title) :
          Except String (List PyVal × List PyVal × List (PyVal × PyVal × PyVal) × PyVal))) = _
    rw [processRows_ok cols rows hrows]
  have hgi := @gridInit_some_ok (rows.map labelOf) cols title (PyVal.str "")
    hlabels hcols
  have h1 : fromLines ((title :: cols) :: rows) =
      (match setCellsFold
          { title := title, dflt := PyVal.str "",
            row_headings := rows.map labelOf, col_headings := cols,
            rows := (rows.map labelOf).map
                      (fun r => (r, ({ entries := [], dflt := PyVal.str "" } : LineRow))) }
          ((rows.map (dataOf cols)).flatten) with
       | (g1, none) => Except.ok g1
       | (_, some e) => Except.error e) := by
    unfold fromLines
    rw [hpl]
    show (match gridInit (rows.map labelOf) cols (some title) (PyVal.str "") with
       | .error e => Except.error e
       | .ok g =>
         match setCellsFold g ((rows.map (dataOf cols)).flatten) with
         | (g1, none) => Except.ok g1
         | (_, some e) => Except.error e) = _
    rw [hgi]
  have hbase : ∀ r ∈ rows, (pyLookup (labelOf r)
      ((rows.map labelOf).map
        (fun l => (l, ({ entries := [], dflt := PyVal.str "" } : LineRow))))).isSome
        = true := by
    intro r hr
    rw [pyLookup_map_const (pyMem_iff_exists.mpr
      ⟨labelOf r, List.mem_map_of_mem labelOf hr, pyEq_refl _⟩)]
    rfl
  have hbasecell : ∀ r ∈ rows, ∀ j, ∀ (hj : j < cols.length),
      getCell { title := title, dflt := PyVal.str "",
                row_headings := rows.map labelOf, col_headings := cols,
                rows := (rows.map labelOf).map
                          (fun r => (r, ({ entries := [], dflt := PyVal.str "" } : LineRow))) }
        (labelOf r) cols[j] = .ok (PyVal.str "") := by
    intro r hr j hj
    have hmem : pyMem cols[j] cols = true :=
      pyMem_iff_exists.mpr ⟨cols[j], List.getElem_mem hj, pyEq_refl _⟩
    unfold getCell
    rw [pyLookup_map_const (pyMem_iff_exists.mpr
      ⟨labelOf r, List.mem_map_of_mem labelOf hr, pyEq_refl _⟩)]
    show (if pyMem cols[j] cols = true then Except.ok (PyVal.str "")
      else Except.error "KeyError") = Except.ok (PyVal.str "")
    rw [if_pos hmem]
  obtain ⟨f0, f1, f2, f3, f4, f5, fframe, fcells⟩ := foldRows_spec cols hcols rows
    { title := title, dflt := PyVal.str "",
      row_headings := rows.map labelOf, col_headings := cols,
      rows := (rows.map labelOf).map
                (fun r => (r, ({ entries := [], dflt := PyVal.str "" } : LineRow))) }
    rfl hbase hlabels
  cases hsf : setCellsFold
      { title := title, dflt := PyVal.str "",
        row_headings := rows.map labelOf, col_headings := cols,
        rows := (rows.map labelOf).map
                  (fun r => (r, ({ entries := [], dflt := PyVal.str "" } : LineRow))) }
      ((rows.map (dataOf cols)).flatten) with
  | mk gf err =>
    rw [hsf] at f0 f3 f4
    simp only [] at f0
    subst f0
    refine ⟨gf, ?_, f3, f4, ?_⟩
    · rw [h1, hsf]
    · intro r hr j hj
      have hc := fcells r hr j hj
      rw [hsf] at hc
      rcases Nat.lt_or_ge j r.tail.length with hlt | hge
      · exact hc.1 hlt
      · have h2 := hc.2 hge
        rw [hbasecell r hr j hj] at h2
        rw [List.getD_eq_default r.tail (PyVal.str "") hge]
        exact h2

/-- **C3, witness** for the amended theorem: a one-row table whose data row is
one entry short and another whose data row is one entry long. -/
theorem fromLines_spec_witness :
    (∃ g, fromLines [[PyVal.str "T", PyVal.str "X", PyVal.str "Y"],
                     [PyVal.str "R", PyVal.int 1]] = .ok g ∧
      g.row_headings = [[PyVal.str "R", PyVal.int 1]].map labelOf ∧
      g.col_headings = [PyVal.str "X", PyVal.str "Y"] ∧
      (∀ r ∈ [[PyVal.str "R", PyVal.int 1]], ∀ j, ∀ (hj : j < 2),
        getCell g (labelOf r) ([PyVal.str "X", PyVal.str "Y"])[j] =
          .ok (r.tail.getD j (PyVal.str "")))) ∧
    (∃ g, fromLines [[PyVal.str "T", PyVal.str "X"],
                     [PyVal.str "R", PyVal.int 1, PyVal.int 2]] = .ok g ∧
      g.row_headings = [[PyVal.str "R", PyVal.int 1, PyVal.int 2]].map labelOf ∧
      g.col_headings = [PyVal.str "X"] ∧
      (∀ r ∈ [[PyVal.str "R", PyVal.int 1, PyVal.int 2]], ∀ j, ∀ (hj : j < 1),
        getCell g (labelOf r) ([PyVal.str "X"])[j] =
          .ok (r.tail.getD j (PyVal.str "")))) := by
  constructor
  · exact fromLines_spec (PyVal.str "T") [PyVal.str "X", PyVal.str "Y"]
      [[PyVal.str "R", PyVal.int 1]] (by decide) (by decide) (by decide)
  · exact fromLines_spec (PyVal.str "T") [PyVal.str "X"]
      [[PyVal.str "R", PyVal.int 1, PyVal.int 2]] (by decide) (by decide) (by decide)

/-! ## Claim C8 — row/column swaps -/

theorem pyIndex_some {x : PyVal} :
    ∀ {l : List PyVal} {i : Nat}, pyIndex l x = some i →
    ∃ (hi : i < l.length), pyEq l[i] x = true := by
  intro l
  induction l with
  | nil => intro i h; cases h
  | cons e rest ih =>
    intro i h
    simp only [pyIndex] at h
    cases he : pyEq e x with
    | true =>
      rw [if_pos he] at h
      cases h
      exact ⟨by simp, he⟩
    | false =>
      rw [if_neg (by simp [he])] at h
      cases hrec : pyIndex rest x with
      | none => rw [hrec] at h; cases h
      | some i' =>
        rw [hrec] at h
        simp only [Option.map_some'] at h
        cases h
        obtain ⟨hi', hp⟩ := ih hrec
        exact ⟨by simpa using Nat.succ_lt_succ hi', by simpa using hp⟩

theorem pyMem_iff_exists_getElem {x : PyVal} {l : List PyVal} :
    pyMem x l = true ↔ ∃ (k : Nat) (v : PyVal), l[k]? = some v ∧ pyEq v x = true := by
  rw [pyMem_iff_exists]
  constructor
  · rintro ⟨e, he, hee⟩
    obtain ⟨k, hk, rfl⟩ := List.mem_iff_getElem.mp he
    exact ⟨k, l[k], List.getElem?_eq_getElem hk, hee⟩
  · rintro ⟨k, v, hkv, hvx⟩
    obtain ⟨hk, rfl⟩ := List.getElem?_eq_some_iff.mp hkv
    exact ⟨l[k], List.getElem_mem hk, hvx⟩

/-- A list that is a pointwise transposition of another has the same
`==`-membership. -/
theorem pyMem_pointwise_swap {l l' : List PyVal} {i j : Nat}
    (h1 : l'[i]? = l[j]?) (h2 : l'[j]? = l[i]?)
    (h3 : ∀ k, k ≠ i → k ≠ j → l'[k]? = l[k]?) (x : PyVal) :
    pyMem x l' = pyMem x l := by
  have dir : ∀ (m m' : List PyVal), m'[i]? = m[j]? → m'[j]? = m[i]? →
      (∀ k, k ≠ i → k ≠ j → m'[k]? = m[k]?) →
      pyMem x m = true → pyMem x m' = true := by
    intro m m' e1 e2 e3 hmem
    obtain ⟨k, v, hkv, hvx⟩ := pyMem_iff_exists_getElem.mp hmem
    rcases Decidable.em (k = i) with rfl | hki
    · exact pyMem_iff_exists_getElem.mpr ⟨j, v, by rw [e2, hkv], hvx⟩
    · rcases Decidable.em (k = j) with rfl | hkj
      · exact pyMem_iff_exists_getElem.mpr ⟨i, v, by rw [e1, hkv], hvx⟩
      · exact pyMem_iff_exists_getElem.mpr ⟨k, v, by rw [e3 k hki hkj, hkv], hvx⟩
  have h3' : ∀ k, k ≠ i → k ≠ j → l[k]? = l'[k]? := fun k hk1 hk2 => (h3 k hk1 hk2).symm
  cases hm : pyMem x l with
  | true => exact dir l l' h1 h2 h3 hm
  | false =>
    cases hm' : pyMem x l' with
    | false => rfl
    | true =>
      have := dir l' l h2.symm h1.symm h3' hm'
      rw [hm] at this
      cases this

/-- `getCell` consults the grid only through the row dict and the
`==`-membership of the two heading lists. -/
theorem getCell_congr (g g' : Grid) (hrows : g'.rows = g.rows)
    (hrh : ∀ x, pyMem x g'.row_headings = pyMem x g.row_headings)
    (hch : ∀ x, pyMem x g'.col_headings = pyMem x g.col_headings)
    (r c : PyVal) : getCell g' r c = getCell g r c := by
  unfold getCell
  rw [hrows]
  cases pyLookup r g.rows with
  | some row =>
    show (match pyLookup c row.entries with
      | some v => Except.ok v
      | none => if pyMem c g'.col_headings = true then Except.ok row.dflt
          else Except.error "KeyError") =
      (match pyLookup c row.entries with
      | some v => Except.ok v
      | none => if pyMem c g.col_headings = true then Except.ok row.dflt
          else Except.error "KeyError")
    cases pyLookup c row.entries with
    | some v => rfl
    | none => rw [hch c]
  | none =>
    show (if pyMem r g'.row_headings = true then Except.error "TypeError"
        else Except.error "KeyError") =
      (if pyMem r g.row_headings = true then Except.error "TypeError"
        else Except.error "KeyError")
    rw [hrh r]

def c8bad : Grid :=
  { title := PyVal.str "G", dflt := PyVal.str "",
    row_headings := [PyVal.bool true, PyVal.str "A", PyVal.str "B"],
    col_headings := [PyVal.str "C"],
    rows := [(PyVal.bool true, { entries := [(PyVal.str "C", PyVal.int 0)], dflt := PyVal.str "" }),
             (PyVal.str "A", { entries := [(PyVal.str "C", PyVal.int 1)], dflt := PyVal.str "" }),
             (PyVal.str "B", { entries := [(PyVal.str "C", PyVal.int 2)], dflt := PyVal.str "" })] }

/-- **C8, counterexample.** `swap_rows` does not merely reorder for every
grid and pair of existing labels: with the boolean label `True` present
(anywhere in the heading list), swapping the two string labels `"A"` and
`"B"` raises the uniqueness error from `UniqueList.swap`'s sentinel
assignment instead of reordering. -/
theorem swapRows_bool_label_cex :
    swapRows c8bad (PyVal.str "A") (PyVal.str "B") = (c8bad, some "ValueError") := by
  decide

/-- **C8, amended.** For a grid whose heading list on the swapped axis is
duplicate-free and contains no label Python-equal to `True` or `False`, and
for existing labels `a` (at index `i`) and `b` (at index `j`) on that axis:
the swap succeeds, only the order of that heading list changes (positions `i`
and `j` are exchanged, all else in place, the other axis and the cell store
untouched), cell access by label returns exactly the same value as before,
and cell iteration follows the permuted order over the unchanged values — so
after `swap_rows(a, b)` with `i < j`, iteration yields `b`'s row values
before `a`'s.  The same holds symmetrically for `swap_cols`. -/
theorem swap_rows_cols_spec (g : Grid) (a b : PyVal) (i j : Nat) :
    ((PyDistinct g.row_headings →
      (∀ e ∈ g.row_headings, pyEq e (.bool true) = false ∧ pyEq e (.bool false) = false) →
      pyIndex g.row_headings a = some i →
      pyIndex g.row_headings b = some j →
      ((swapRows g a b).2 = none ∧
       (swapRows g a b).1.title = g.title ∧
       (swapRows g a b).1.dflt = g.dflt ∧
       (swapRows g a b).1.col_headings = g.col_headings ∧
       (swapRows g a b).1.rows = g.rows ∧
       (swapRows g a b).1.row_headings.length = g.row_headings.length ∧
       (swapRows g a b).1.row_headings[i]? = g.row_headings[j]? ∧
       (swapRows g a b).1.row_headings[j]? = g.row_headings[i]? ∧
       (∀ k, k ≠ i → k ≠ j → (swapRows g a b).1.row_headings[k]? = g.row_headings[k]?) ∧
       (∀ r c, getCell (swapRows g a b).1 r c = getCell g r c) ∧
       cellsList (swapRows g a b).1 =
         ((swapRows g a b).1.row_headings.map
           (fun r => g.col_headings.map (fun c => (r, c, getCell g r c)))).flatten))) ∧
    ((PyDistinct g.col_headings →
      (∀ e ∈ g.col_headings, pyEq e (.bool true) = false ∧ pyEq e (.bool false) = false) →
      pyIndex g.col_headings a = some i →
      pyIndex g.col_headings b = some j →
      ((swapCols g a b).2 = none ∧
       (swapCols g a b).1.title = g.title ∧
       (swapCols g a b).1.dflt = g.dflt ∧
       (swapCols g a b).1.row_headings = g.row_headings ∧
       (swapCols g a b).1.rows = g.rows ∧
       (swapCols g a b).1.col_headings.length = g.col_headings.length ∧
       (swapCols g a b).1.col_headings[i]? = g.col_headings[j]? ∧
       (swapCols g a b).1.col_headings[j]? = g.col_headings[i]? ∧
       (∀ k, k ≠ i → k ≠ j → (swapCols g a b).1.col_headings[k]? = g.col_headings[k]?) ∧
       (∀ r c, getCell (swapCols g a b).1 r c = getCell g r c) ∧
       cellsList (swapCols g a b).1 =
         (g.row_headings.map
           (fun r => (swapCols g a b).1.col_headings.map
             (fun c => (r, c, getCell g r c)))).flatten))) := by
  constructor
  · intro hd hb hia hib
    obtain ⟨hi, _⟩ := pyIndex_some hia
    obtain ⟨hj, _⟩ := pyIndex_some hib
    have hsw := ULswap_spec g.row_headings i j hd hi hj hb
    cases hu : ULswap g.row_headings i j with
    | mk l1 e1 =>
      rw [hu] at hsw
      have he : e1 = none := hsw.1
      subst he
      have hlen : l1.length = g.row_headings.length := hsw.2.1
      have hpi : l1[i]? = g.row_headings[j]? := hsw.2.2.1
      have hpj : l1[j]? = g.row_headings[i]? := hsw.2.2.2.1
      have hpk : ∀ k, k ≠ i → k ≠ j → l1[k]? = g.row_headings[k]? := hsw.2.2.2.2
      have hrun : swapRows g a b = ({ g with row_headings := l1 }, none) := by
        unfold swapRows
        simp only [hia, hib, hu]
      rw [hrun]
      have hperm : ∀ x, pyMem x l1 = pyMem x g.row_headings :=
        pyMem_pointwise_swap hpi hpj hpk
      have hget : ∀ r c, getCell { g with row_headings := l1 } r c = getCell g r c :=
        getCell_congr g { g with row_headings := l1 } rfl hperm (fun x => rfl)
      refine ⟨rfl, rfl, rfl, rfl, rfl, hlen, hpi, hpj, hpk, hget, ?_⟩
      show (l1.map (fun r => g.col_headings.map
        (fun c => (r, c, getCell { g with row_headings := l1 } r c)))).flatten = _
      congr 1
      apply List.map_congr_left
      intro r _
      apply List.map_congr_left
      intro c _
      rw [hget r c]
  · intro hd hb hia hib
    obtain ⟨hi, _⟩ := pyIndex_some hia
    obtain ⟨hj, _⟩ := pyIndex_some hib
    have hsw := ULswap_spec g.col_headings i j hd hi hj hb
    cases hu : ULswap g.col_headings i j with
    | mk l1 e1 =>
      rw [hu] at hsw
      have he : e1 = none := hsw.1
      subst he
      have hlen : l1.length = g.col_headings.length := hsw.2.1
      have hpi : l1[i]? = g.col_headings[j]? := hsw.2.2.1
      have hpj : l1[j]? = g.col_headings[i]? := hsw.2.2.2.1
      have hpk : ∀ k, k ≠ i → k ≠ j → l1[k]? = g.col_headings[k]? := hsw.2.2.2.2
      have hrun : swapCols g a b = ({ g with col_headings := l1 }, none) := by
        unfold swapCols
        simp only [hia, hib, hu]
      rw [hrun]
      have hperm : ∀ x, pyMem x l1 = pyMem x g.col_headings :=
        pyMem_pointwise_swap hpi hpj hpk
      have hget : ∀ r c, getCell { g with col_headings := l1 } r c = getCell g r c :=
        getCell_congr g { g with col_headings := l1 } rfl (fun x => rfl) hperm
      refine ⟨rfl, rfl, rfl, rfl, rfl, hlen, hpi, hpj, hpk, hget, ?_⟩
      show (g.row_headings.map (fun r => l1.map
        (fun c => (r, c, getCell { g with col_headings := l1 } r c)))).flatten = _
      congr 1
      apply List.map_congr_left
      intro r _
      apply List.map_congr_left
      intro c _
      rw [hget r c]

def c8good : Grid :=
  { title := PyVal.str "G", dflt := PyVal.str "",
    row_headings := [PyVal.str "Row 1", PyVal.str "Row 2"],
    col_headings := [PyVal.str "C"],
    rows := [(PyVal.str "Row 1", { entries := [(PyVal.str "C", PyVal.int 1)], dflt := PyVal.str "" }),
             (PyVal.str "Row 2", { entries := [(PyVal.str "C", PyVal.int 2)], dflt := PyVal.str "" })] }

/-- **C8, witness** for the amended theorem at a concrete grid. -/
theorem swap_rows_cols_spec_witness :
    (swapRows c8good (PyVal.str "Row 1") (PyVal.str "Row 2")).2 = none ∧
    (swapRows c8good (PyVal.str "Row 1") (PyVal.str "Row 2")).1.row_headings[0]? =
      c8good.row_headings[1]? ∧
    (swapRows c8good (PyVal.str "Row 1") (PyVal.str "Row 2")).1.row_headings[1]? =
      c8good.row_headings[0]? ∧
    getCell (swapRows c8good (PyVal.str "Row 1") (PyVal.str "Row 2")).1
      (PyVal.str "Row 1") (PyVal.str "C") =
      getCell c8good (PyVal.str "Row 1") (PyVal.str "C") := by
  obtain ⟨h1, -, -, -, -, -, h7, h8, -, h10, -⟩ :=
    (swap_rows_cols_spec c8good (PyVal.str "Row 1") (PyVal.str "Row 2") 0 1).1
      (by decide) (by decide) (by decide) (by decide)
  exact ⟨h1, h7, h8, h10 (PyVal.str "Row 1") (PyVal.str "C")⟩

/-! ## Invariant machinery (towards C5) -/

/-- A `__setitem__` call that returns normally performed the positional
update (and the index was in range). -/
theorem ULsetitem_success {l l' : List PyVal} {i : Nat} {y : PyVal}
    (h : ULsetitem l i y = (l', none)) : l' = l.set i y ∧ i < l.length := by
  unfold ULsetitem at h
  by_cases hn : isNew l y = true
  · rw [if_pos hn] at h
    by_cases hil : i < l.length
    · rw [if_pos hil] at h
      exact ⟨((Prod.mk.injEq _ _ _ _ ▸ h).1).symm, hil⟩
    · rw [if_neg hil] at h
      cases (Prod.mk.injEq _ _ _ _ ▸ h).2
  · rw [if_neg hn] at h
    cases (Prod.mk.injEq _ _ _ _ ▸ h).2

/-- Any `swap` call that returns normally produced exactly the pointwise
transposition of positions `i` and `j` (whatever the list contents were). -/
theorem ULswap_success_shape {l l' : List PyVal} {i j : Nat}
    (h : ULswap l i j = (l', none)) :
    l'.length = l.length ∧ l'[i]? = l[j]? ∧ l'[j]? = l[i]? ∧
    (∀ k, k ≠ i → k ≠ j → l'[k]? = l[k]?) := by
  unfold ULswap at h
  cases h1 : l[i]? with
  | none =>
    rw [h1] at h
    have hx : (l, (some "IndexError" : Option String)) = (l', none) := h
    cases (Prod.mk.injEq _ _ _ _ ▸ hx).2
  | some t1 =>
    rw [h1] at h
    cases h2 : ULsetitem l i (.bool true) with
    | mk l1 e1 =>
      rw [h2] at h
      cases e1 with
      | some e =>
        have hx : (l1, (some e : Option String)) = (l', none) := h
        cases (Prod.mk.injEq _ _ _ _ ▸ hx).2
      | none =>
        have hS2 : (match l1[j]? with
            | none => (l1, (some "IndexError" : Option String))
            | some t2 =>
              match ULsetitem l1 j (.bool false) with
              | (l2, some e) => (l2, some e)
              | (l2, none) =>
                match ULsetitem l2 i t2 with
                | (l3, some e) => (l3, some e)
                | (l3, none) =>
                  match ULsetitem l3 j t1 with
                  | (l4, some e) => (l4, some e)
                  | (l4, none) => (l4, none)) = (l', none) := h
        cases h3 : l1[j]? with
        | none =>
          rw [h3] at hS2
          cases (Prod.mk.injEq _ _ _ _ ▸ hS2).2
        | some t2 =>
          rw [h3] at hS2
          cases h4 : ULsetitem l1 j (.bool false) with
          | mk l2 e2 =>
            rw [h4] at hS2
            cases e2 with
            | some e =>
              have hx : (l2, (some e : Option String)) = (l', none) := hS2
              cases (Prod.mk.injEq _ _ _ _ ▸ hx).2
            | none =>
              have hS3 : (match ULsetitem l2 i t2 with
                  | (l3, some e) => (l3, some e)
                  | (l3, none) =>
                    match ULsetitem l3 j t1 with
                    | (l4, some e) => (l4, some e)
                    | (l4, none) => (l4, none)) = (l', none) := hS2
              cases h5 : ULsetitem l2 i t2 with
              | mk l3 e3 =>
                rw [h5] at hS3
                cases e3 with
                | some e =>
                  have hx : (l3, (some e : Option String)) = (l', none) := hS3
                  cases (Prod.mk.injEq _ _ _ _ ▸ hx).2
                | none =>
                  have hS4 : (match ULsetitem l3 j t1 with
                      | (l4, some e) => (l4, some e)
                      | (l4, none) => (l4, none)) = (l', none) := hS3
                  cases h6 : ULsetitem l3 j t1 with
                  | mk l4 e4 =>
                    rw [h6] at hS4
                    cases e4 with
                    | some e =>
                      have hx : (l4, (some e : Option String)) = (l', none) := hS4
                      cases (Prod.mk.injEq _ _ _ _ ▸ hx).2
                    | none =>
                      have hE : l4 = l' := (Prod.mk.injEq _ _ _ _ ▸ hS4).1
                      obtain ⟨hA, hi⟩ := ULsetitem_success h2
                      obtain ⟨hB, hj1⟩ := ULsetitem_success h4
                      obtain ⟨hC, -⟩ := ULsetitem_success h5
                      obtain ⟨hD, -⟩ := ULsetitem_success h6
                      have hj : j < l.length := by
                        rw [hA, List.length_set] at hj1
                        exact hj1
                      have ht1 : t1 = l[i] := by
                        rw [List.getElem?_eq_getElem hi] at h1
                        exact (Option.some.injEq _ _ ▸ h1).symm
                      have ht2 : t2 = if i = j then PyVal.bool true else l[j] := by
                        have hv : l1[j]? = some (if i = j then PyVal.bool true else l[j]) := by
                          rw [hA]
                          by_cases hij : i = j
                          · rw [if_pos hij, ← hij]
                            rw [List.getElem?_set_self hi]
                          · rw [if_neg hij, List.getElem?_set_ne hij,
                              List.getElem?_eq_getElem hj]
                        rw [hv] at h3
                        exact (Option.some.injEq _ _ ▸ h3).symm
                      have hfinal : l' =
                          (((l.set i (.bool true)).set j (.bool false)).set i t2).set j t1 := by
                        rw [← hE, hD, hC, hB, hA]
                      rw [hfinal]
                      refine ⟨by simp, ?_, ?_, ?_⟩
                      · by_cases hij : i = j
                        · subst hij
                          rw [List.getElem?_eq_getElem hi,
                            List.getElem?_set_self (by simpa using hi), ht1]
                        · rw [List.getElem?_eq_getElem hj,
                            List.getElem?_set_ne (fun hc => hij hc.symm),
                            List.getElem?_set_self (by simpa using hi), ht2, if_neg hij]
                      · rw [List.getElem?_set_self (by simpa using hj)]
                      · intro k hki hkj
                        rw [List.getElem?_set_ne (fun hc => hkj hc.symm),
                          List.getElem?_set_ne (fun hc => hki hc.symm),
                          List.getElem?_set_ne (fun hc => hkj hc.symm),
                          List.getElem?_set_ne (fun hc => hki hc.symm)]

/-- Pairwise distinctness transports along a pointwise transposition. -/
theorem pyDistinct_pointwise_swap {l l' : List PyVal} {i j : Nat}
    (hlen : l'.length = l.length)
    (h1 : l'[i]? = l[j]?) (h2 : l'[j]? = l[i]?)
    (h3 : ∀ k, k ≠ i → k ≠ j → l'[k]? = l[k]?)
    (hd : PyDistinct l) : PyDistinct l' := by
  rw [PyDistinct, List.pairwise_iff_getElem]
  intro a b ha hb hab
  have hget : ∀ k, ∀ (hk : k < l'.length),
      ∃ m, ∃ (hm : m < l.length), l'[k] = l[m] ∧
        (k = i → m = j) ∧ (k = j ∧ k ≠ i → m = i) ∧ (k ≠ i → k ≠ j → m = k) := by
    intro k hk
    rcases Decidable.em (k = i) with rfl | hki
    · have : l[j]? = some l'[k] := by rw [← h1, List.getElem?_eq_getElem hk]
      obtain ⟨hm, hv⟩ := List.getElem?_eq_some_iff.mp this
      exact ⟨j, hm, hv.symm, fun _ => rfl, fun hc => absurd rfl hc.2, fun hc => absurd rfl hc⟩
    · rcases Decidable.em (k = j) with rfl | hkj
      · have : l[i]? = some l'[k] := by rw [← h2, List.getElem?_eq_getElem hk]
        obtain ⟨hm, hv⟩ := List.getElem?_eq_some_iff.mp this
        exact ⟨i, hm, hv.symm, fun hc => absurd hc hki, fun _ => rfl,
          fun _ hc => absurd rfl hc⟩
      · have : l[k]? = some l'[k] := by rw [← h3 k hki hkj, List.getElem?_eq_getElem hk]
        obtain ⟨hm, hv⟩ := List.getElem?_eq_some_iff.mp this
        exact ⟨k, hm, hv.symm, fun hc => absurd hc hki, fun hc => absurd hc.1 hkj,
          fun _ _ => rfl⟩
  obtain ⟨ma, hma, hva, hai, haj, hak⟩ := hget a ha
  obtain ⟨mb, hmb, hvb, hbi, hbj, hbk⟩ := hget b hb
  have hne : ma ≠ mb := by
    have hab' : a ≠ b := Nat.ne_of_lt hab
    by_cases hA1 : a = i
    · have hmaj : ma = j := hai hA1
      by_cases hB1 : b = i
      · exact absurd (hA1.trans hB1.symm) hab'
      · by_cases hB2 : b = j
        · have hmbi : mb = i := hbj ⟨hB2, hB1⟩
          rw [hmaj, hmbi]
          intro hji
          exact hab' (by rw [hA1, hB2, hji])
        · have hmbb : mb = b := hbk hB1 hB2
          rw [hmaj, hmbb]
          intro hjb
          exact hB2 hjb.symm
    · by_cases hA2 : a = j
      · have hmai : ma = i := haj ⟨hA2, hA1⟩
        by_cases hB1 : b = i
        · have hmbj : mb = j := hbi hB1
          rw [hmai, hmbj]
          intro hij
          exact hab' (by rw [hA2, hB1, hij])
        · by_cases hB2 : b = j
          · exact absurd (hA2.trans hB2.symm) hab'
          · have hmbb : mb = b := hbk hB1 hB2
            rw [hmai, hmbb]
            intro hib
            exact hB1 hib.symm
      · have hmaa : ma = a := hak hA1 hA2
        by_cases hB1 : b = i
        · have hmbj : mb = j := hbi hB1
          rw [hmaa, hmbj]
          intro haj2
          exact hA2 haj2
        · by_cases hB2 : b = j
          · have hmbi : mb = i := hbj ⟨hB2, hB1⟩
            rw [hmaa, hmbi]
            intro hai2
            exact hA1 hai2
          · have hmbb : mb = b := hbk hB1 hB2
            rw [hmaa, hmbb]
            exact hab'
  rw [hva, hvb]
  exact pyDistinct_idx hd ma mb hma hmb hne

theorem setCellsFold_fields :
    ∀ (data : List (PyVal × PyVal × PyVal)) (g : Grid),
    (setCellsFold g data).1.title = g.title ∧
    (setCellsFold g data).1.dflt = g.dflt ∧
    (setCellsFold g data).1.row_headings = g.row_headings ∧
    (setCellsFold g data).1.col_headings = g.col_headings ∧
    (setCellsFold g data).1.rows.map Prod.fst = g.rows.map Prod.fst := by
  intro data
  induction data with
  | nil => intro g; exact ⟨rfl, rfl, rfl, rfl, rfl⟩
  | cons p rest ih =>
    intro g
    obtain ⟨r, c, v⟩ := p
    simp only [setCellsFold]
    cases hs : setCell g r c v with
    | mk g1 err =>
      have hf := setCell_fields g r c v
      rw [hs] at hf
      cases err with
      | none =>
        obtain ⟨f1, f2, f3, f4, f5⟩ := ih g1
        exact ⟨f1.trans hf.1, f2.trans hf.2.1, f3.trans hf.2.2.1,
          f4.trans hf.2.2.2.1, f5.trans hf.2.2.2.2⟩
      | some e => exact hf

theorem WF_transport {g g' : Grid}
    (hrh : g'.row_headings = g.row_headings)
    (hch : g'.col_headings = g.col_headings)
    (hkeys : g'.rows.map Prod.fst = g.rows.map Prod.fst)
    (h : WF g) : WF g' := by
  refine ⟨?_, ?_, ?_, ?_⟩
  · rw [hrh]; exact h.rowsDistinct
  · rw [hch]; exact h.colsDistinct
  · intro x; rw [hrh, hkeys]; exact h.keysEq x
  · rw [hkeys]; exact h.keysDistinct

theorem WF_gridInit :
    ∀ (rh ch : List PyVal) (t : Option PyVal) (d : PyVal) (g : Grid),
    gridInit rh ch t d = .ok g → WF g := by
  intro rh ch t d g hok
  cases t with
  | none =>
    rw [show gridInit rh ch none d = Except.error "AttributeError" from rfl] at hok
    cases hok
  | some t =>
    have hbody : gridInit rh ch (some t) d =
        (if checkStillUnique rh = true then
          if checkStillUnique ch = true then
            Except.ok { title := t, dflt := d, row_headings := rh, col_headings := ch,
                        rows := rh.foldl (fun dd r => dictSet dd r ⟨[], d⟩) [] }
          else Except.error "ValueError"
        else Except.error "ValueError") := rfl
    rw [hbody] at hok
    by_cases h1 : checkStillUnique rh = true
    · rw [if_pos h1] at hok
      by_cases h2 : checkStillUnique ch = true
      · rw [if_pos h2] at hok
        have hd1 : PyDistinct rh := checkStillUnique_iff.mp h1
        have hd2 : PyDistinct ch := checkStillUnique_iff.mp h2
        have hg : g = { title := t, dflt := d, row_headings := rh, col_headings := ch,
                        rows := rh.foldl (fun dd r => dictSet dd r ⟨[], d⟩) [] } :=
          ((Except.ok.injEq _ _ ▸ hok)).symm
        subst hg
        have hrows : rh.foldl (fun dd r => dictSet dd r (⟨[], d⟩ : LineRow)) [] =
            rh.map (fun r => (r, ⟨[], d⟩)) := by
          rw [foldl_dictSet_fresh d rh [] hd1 (fun r _ => rfl)]
          rfl
        have hkeys2 : ((rh.map (fun r => (r, (⟨[], d⟩ : LineRow)))).map Prod.fst) = rh := by
          rw [List.map_map]
          exact (List.map_congr_left (fun a _ => rfl)).trans (List.map_id rh)
        refine ⟨hd1, hd2, ?_, ?_⟩
        · intro x
          show pyMem x ((rh.foldl (fun dd r =>
            dictSet dd r (⟨[], d⟩ : LineRow)) []).map Prod.fst) = pyMem x rh
          rw [hrows, hkeys2]
        · show PyDistinct ((rh.foldl (fun dd r =>
            dictSet dd r (⟨[], d⟩ : LineRow)) []).map Prod.fst)
          rw [hrows, hkeys2]
          exact hd1
      · rw [if_neg h2] at hok; cases hok
    · rw [if_neg h1] at hok; cases hok

theorem WF_fromLines : ∀ (lines : List (List PyVal)) (g : Grid),
    fromLines lines = .ok g → WF g := by
  intro lines g hok
  unfold fromLines at hok
  cases hpl : processLines lines with
  | error e => rw [hpl] at hok; cases hok
  | ok quad =>
    obtain ⟨rh, ch, data, t⟩ := quad
    rw [hpl] at hok
    have hok2 : (match gridInit rh ch (some t) (PyVal.str "") with
        | .error e => Except.error e
        | .ok g0 =>
          match setCellsFold g0 data with
          | (g1, none) => Except.ok g1
          | (_, some e) => Except.error e) = Except.ok g := hok
    cases hgi : gridInit rh ch (some t) (PyVal.str "") with
    | error e => rw [hgi] at hok2; cases hok2
    | ok g0 =>
      rw [hgi] at hok2
      have hok3 : (match setCellsFold g0 data with
          | (g1, none) => Except.ok g1
          | (_, some e) => Except.error e) = Except.ok g := hok2
      cases hsf : setCellsFold g0 data with
      | mk g1 err =>
        rw [hsf] at hok3
        cases err with
        | some e => cases hok3
        | none =>
          have hg : g1 = g := Except.ok.injEq _ _ ▸ hok3
          subst hg
          have hf := setCellsFold_fields data g0
          rw [hsf] at hf
          exact WF_transport hf.2.2.1 hf.2.2.2.1 hf.2.2.2.2 (WF_gridInit rh ch (some t) _ g0 hgi)

theorem WF_appendRow : ∀ (g : Grid) (h : PyVal) (row : List PyVal) (g' : Grid),
    WF g → appendRow g h row = (g', none) → WF g' := by
  intro g h row g' hwf hok
  unfold appendRow at hok
  by_cases hlen : g.col_headings.length ≠ row.length
  · rw [if_pos hlen] at hok
    cases (Prod.mk.injEq _ _ _ _ ▸ hok).2
  · rw [if_neg hlen] at hok
    by_cases hmem : pyMem h g.row_headings = true
    · rw [if_pos hmem] at hok
      cases (Prod.mk.injEq _ _ _ _ ▸ hok).2
    · rw [if_neg (by simpa using hmem)] at hok
      have hmem' : pyMem h g.row_headings = false := by
        cases hx : pyMem h g.row_headings with
        | false => rfl
        | true => exact absurd hx hmem
      have hkeys' : pyMem h (g.rows.map Prod.fst) = false := by
        rw [hwf.keysEq h]; exact hmem'
      have hrun := runRowCells_fields h
        { g with row_headings := g.row_headings ++ [h],
                 rows := dictSet g.rows h ⟨[], .str ""⟩ }
        (g.col_headings.zip row)
      rw [hok] at hrun
      have hfresh : ∀ e ∈ g.row_headings, pyEq e h = false :=
        pyMem_eq_false_iff.mp hmem'
      have hkfresh : ∀ e ∈ g.rows.map Prod.fst, pyEq e h = false :=
        pyMem_eq_false_iff.mp hkeys'
      have hdkeys : (dictSet g.rows h (⟨[], .str ""⟩ : LineRow)).map Prod.fst =
          g.rows.map Prod.fst ++ [h] := by
        rw [dictSet_append_of_not_mem _ hkeys']
        simp
      refine ⟨?_, ?_, ?_, ?_⟩
      · rw [hrun.2.2.1]
        show PyDistinct (g.row_headings ++ [h])
        rw [PyDistinct, List.pairwise_append]
        exact ⟨hwf.rowsDistinct, by simp [PyDistinct], by simpa using hfresh⟩
      · rw [hrun.2.2.2.1]
        exact hwf.colsDistinct
      · intro x
        rw [hrun.2.2.1, hrun.2.2.2.2]
        show pyMem x ((dictSet g.rows h ⟨[], .str ""⟩).map Prod.fst)
          = pyMem x (g.row_headings ++ [h])
        rw [hdkeys, pyMem_append, pyMem_append, hwf.keysEq x]
      · rw [hrun.2.2.2.2]
        show PyDistinct ((dictSet g.rows h ⟨[], .str ""⟩).map Prod.fst)
        rw [hdkeys, PyDistinct, List.pairwise_append]
        exact ⟨hwf.keysDistinct, by simp [PyDistinct], by simpa using hkfresh⟩

theorem WF_appendCol : ∀ (g : Grid) (h : PyVal) (col : List PyVal) (g' : Grid),
    WF g → appendCol g h col = (g', none) → WF g' := by
  intro g h col g' hwf hok
  unfold appendCol at hok
  by_cases hlen : g.row_headings.length ≠ col.length
  · rw [if_pos hlen] at hok
    cases (Prod.mk.injEq _ _ _ _ ▸ hok).2
  · rw [if_neg hlen] at hok
    by_cases hmem : pyMem h g.col_headings = true
    · rw [if_pos hmem] at hok
      cases (Prod.mk.injEq _ _ _ _ ▸ hok).2
    · rw [if_neg (by simpa using hmem)] at hok
      have hmem' : pyMem h g.col_headings = false := by
        cases hx : pyMem h g.col_headings with
        | false => rfl
        | true => exact absurd hx hmem
      have hrun := runColCells_fields h
        { g with col_headings := g.col_headings ++ [h] } (g.row_headings.zip col)
      rw [hok] at hrun
      have hfresh : ∀ e ∈ g.col_headings, pyEq e h = false :=
        pyMem_eq_false_iff.mp hmem'
      refine ⟨?_, ?_, ?_, ?_⟩
      · rw [hrun.2.2.1]; exact hwf.rowsDistinct
      · rw [hrun.2.2.2.1]
        show PyDistinct (g.col_headings ++ [h])
        rw [PyDistinct, List.pairwise_append]
        exact ⟨hwf.colsDistinct, by simp [PyDistinct], by simpa using hfresh⟩
      · intro x
        rw [hrun.2.2.1, hrun.2.2.2.2]
        exact hwf.keysEq x
      · rw [hrun.2.2.2.2]
        exact hwf.keysDistinct

theorem WF_setRow : ∀ (g : Grid) (h : PyVal) (vs : List PyVal) (g' : Grid),
    WF g → setRow g h vs = (g', none) → WF g' := by
  intro g h vs g' hwf hok
  unfold setRow at hok
  by_cases hlen : g.col_headings.length ≠ vs.length
  · rw [if_pos hlen] at hok
    cases (Prod.mk.injEq _ _ _ _ ▸ hok).2
  · rw [if_neg hlen] at hok
    have hrun := runRowCells_fields h g (g.col_headings.zip vs)
    rw [hok] at hrun
    exact WF_transport hrun.2.2.1 hrun.2.2.2.1 hrun.2.2.2.2 hwf

theorem WF_setCol : ∀ (g : Grid) (h : PyVal) (vs : List PyVal) (g' : Grid),
    WF g → setCol g h vs = (g', none) → WF g' := by
  intro g h vs g' hwf hok
  unfold setCol at hok
  by_cases hlen : g.row_headings.length ≠ vs.length
  · rw [if_pos hlen] at hok
    cases (Prod.mk.injEq _ _ _ _ ▸ hok).2
  · rw [if_neg hlen] at hok
    have hrun := runColCells_fields h g (g.row_headings.zip vs)
    rw [hok] at hrun
    exact WF_transport hrun.2.2.1 hrun.2.2.2.1 hrun.2.2.2.2 hwf

theorem WF_swapRows : ∀ (g : Grid) (a b : PyVal) (g' : Grid),
    WF g → swapRows g a b = (g', none) → WF g' := by
  intro g a b g' hwf hok
  unfold swapRows at hok
  cases hia : pyIndex g.row_headings a with
  | none =>
    rw [hia] at hok
    cases (Prod.mk.injEq _ _ _ _ ▸ hok).2
  | some i =>
    rw [hia] at hok
    have hok2 : (match pyIndex g.row_headings b with
        | none => (g, some "ValueError")
        | some j =>
          match ULswap g.row_headings i j with
          | (l1, e) => ({ g with row_headings := l1 }, e)) = (g', none) := hok
    cases hib : pyIndex g.row_headings b with
    | none =>
      rw [hib] at hok2
      cases (Prod.mk.injEq _ _ _ _ ▸ hok2).2
    | some j =>
      rw [hib] at hok2
      have hok3 : (match ULswap g.row_headings i j with
          | (l1, e) => (({ g with row_headings := l1 } : Grid), e)) = (g', none) := hok2
      cases hu : ULswap g.row_headings i j with
      | mk l1 e =>
        rw [hu] at hok3
        have hg : ({ g with row_headings := l1 } : Grid) = g' :=
          (Prod.mk.injEq _ _ _ _ ▸ hok3).1
        have he : e = none := (Prod.mk.injEq _ _ _ _ ▸ hok3).2
        subst he
        obtain ⟨hlen, h1, h2, h3⟩ := ULswap_success_shape hu
        subst hg
        refine ⟨?_, hwf.colsDistinct, ?_, hwf.keysDistinct⟩
        · exact pyDistinct_pointwise_swap hlen h1 h2 h3 hwf.rowsDistinct
        · intro x
          show pyMem x (g.rows.map Prod.fst) = pyMem x l1
          rw [pyMem_pointwise_swap h1 h2 h3 x]
          exact hwf.keysEq x

theorem WF_swapCols : ∀ (g : Grid) (a b : PyVal) (g' : Grid),
    WF g → swapCols g a b = (g', none) → WF g' := by
  intro g a b g' hwf hok
  unfold swapCols at hok
  cases hia : pyIndex g.col_headings a with
  | none =>
    rw [hia] at hok
    cases (Prod.mk.injEq _ _ _ _ ▸ hok).2
  | some i =>
    rw [hia] at hok
    have hok2 : (match pyIndex g.col_headings b with
        | none => (g, some "ValueError")
        | some j =>
          match ULswap g.col_headings i j with
          | (l1, e) => ({ g with col_headings := l1 }, e)) = (g', none) := hok
    cases hib : pyIndex g.col_headings b with
    | none =>
      rw [hib] at hok2
      cases (Prod.mk.injEq _ _ _ _ ▸ hok2).2
    | some j =>
      rw [hib] at hok2
      have hok3 : (match ULswap g.col_headings i j with
          | (l1, e) => (({ g with col_headings := l1 } : Grid), e)) = (g', none) := hok2
      cases hu : ULswap g.col_headings i j with
      | mk l1 e =>
        rw [hu] at hok3
        have hg : ({ g with col_headings := l1 } : Grid) = g' :=
          (Prod.mk.injEq _ _ _ _ ▸ hok3).1
        have he : e = none := (Prod.mk.injEq _ _ _ _ ▸ hok3).2
        subst he
        obtain ⟨hlen, h1, h2, h3⟩ := ULswap_success_shape hu
        subst hg
        exact ⟨hwf.rowsDistinct,
          pyDistinct_pointwise_swap hlen h1 h2 h3 hwf.colsDistinct,
          hwf.keysEq, hwf.keysDistinct⟩

theorem WF_combineAppendRows (other : Grid) :
    ∀ (hs : List PyVal) (g g' : Grid),
    WF g → combineAppendRows other g hs = (g', none) → WF g' := by
  intro hs
  induction hs with
  | nil =>
    intro g g' hwf hok
    have hg : g = g' := (Prod.mk.injEq _ _ _ _ ▸ hok).1
    exact hg ▸ hwf
  | cons h rest ih =>
    intro g g' hwf hok
    unfold combineAppendRows at hok
    cases hv : rowValsE other h with
    | error e =>
      rw [hv] at hok
      cases (Prod.mk.injEq _ _ _ _ ▸ hok).2
    | ok vs =>
      rw [hv] at hok
      have hokA : (match appendRow g h vs with
          | (g1, none) => combineAppendRows other g1 rest
          | (g1, some e) => (g1, some e)) = (g', none) := hok
      cases ha : appendRow g h vs with
      | mk g1 e =>
        rw [ha] at hokA
        cases e with
        | some e' =>
          have hok2 : ((g1 : Grid), (some e' : Option String)) = (g', none) := hokA
          cases (Prod.mk.injEq _ _ _ _ ▸ hok2).2
        | none =>
          have hok2 : combineAppendRows other g1 rest = (g', none) := hokA
          exact ih g1 g' (WF_appendRow g h vs g1 hwf ha) hok2

theorem WF_combineAppendCols (other : Grid) :
    ∀ (hs : List PyVal) (g g' : Grid),
    WF g → combineAppendCols other g hs = (g', none) → WF g' := by
  intro hs
  induction hs with
  | nil =>
    intro g g' hwf hok
    have hg : g = g' := (Prod.mk.injEq _ _ _ _ ▸ hok).1
    exact hg ▸ hwf
  | cons h rest ih =>
    intro g g' hwf hok
    unfold combineAppendCols at hok
    cases hv : colValsE other h with
    | error e =>
      rw [hv] at hok
      cases (Prod.mk.injEq _ _ _ _ ▸ hok).2
    | ok vs =>
      rw [hv] at hok
      have hokA : (match appendCol g h vs with
          | (g1, none) => combineAppendCols other g1 rest
          | (g1, some e) => (g1, some e)) = (g', none) := hok
      cases ha : appendCol g h vs with
      | mk g1 e =>
        rw [ha] at hokA
        cases e with
        | some e' =>
          have hok2 : ((g1 : Grid), (some e' : Option String)) = (g', none) := hokA
          cases (Prod.mk.injEq _ _ _ _ ▸ hok2).2
        | none =>
          have hok2 : combineAppendCols other g1 rest = (g', none) := hokA
          exact ih g1 g' (WF_appendCol g h vs g1 hwf ha) hok2

theorem WF_combineSetRows (other : Grid) :
    ∀ (hs : List PyVal) (g g' : Grid),
    WF g → combineSetRows other g hs = (g', none) → WF g' := by
  intro hs
  induction hs with
  | nil =>
    intro g g' hwf hok
    have hg : g = g' := (Prod.mk.injEq _ _ _ _ ▸ hok).1
    exact hg ▸ hwf
  | cons h rest ih =>
    intro g g' hwf hok
    unfold combineSetRows at hok
    cases hv : rowValsE other h with
    | error e =>
      rw [hv] at hok
      cases (Prod.mk.injEq _ _ _ _ ▸ hok).2
    | ok vs =>
      rw [hv] at hok
      have hokA : (match setRow g h vs with
          | (g1, none) => combineSetRows other g1 rest
          | (g1, some e) => (g1, some e)) = (g', none) := hok
      cases ha : setRow g h vs with
      | mk g1 e =>
        rw [ha] at hokA
        cases e with
        | some e' =>
          have hok2 : ((g1 : Grid), (some e' : Option String)) = (g', none) := hokA
          cases (Prod.mk.injEq _ _ _ _ ▸ hok2).2
        | none =>
          have hok2 : combineSetRows other g1 rest = (g', none) := hokA
          exact ih g1 g' (WF_setRow g h vs g1 hwf ha) hok2

theorem WF_combineSetCols (other : Grid) :
    ∀ (hs : List PyVal) (g g' : Grid),
    WF g → combineSetCols other g hs = (g', none) → WF g' := by
  intro hs
  induction hs with
  | nil =>
    intro g g' hwf hok
    have hg : g = g' := (Prod.mk.injEq _ _ _ _ ▸ hok).1
    exact hg ▸ hwf
  | cons h rest ih =>
    intro g g' hwf hok
    unfold combineSetCols at hok
    cases hv : colValsE other h with
    | error e =>
      rw [hv] at hok
      cases (Prod.mk.injEq _ _ _ _ ▸ hok).2
    | ok vs =>
      rw [hv] at hok
      have hokA : (match setCol g h vs with
          | (g1, none) => combineSetCols other g1 rest
          | (g1, some e) => (g1, some e)) = (g', none) := hok
      cases ha : setCol g h vs with
      | mk g1 e =>
        rw [ha] at hokA
        cases e with
        | some e' =>
          have hok2 : ((g1 : Grid), (some e' : Option String)) = (g', none) := hokA
          cases (Prod.mk.injEq _ _ _ _ ▸ hok2).2
        | none =>
          have hok2 : combineSetCols other g1 rest = (g', none) := hokA
          exact ih g1 g' (WF_setCol g h vs g1 hwf ha) hok2

theorem WF_combine : ∀ (g other : Grid) (ow : Bool) (g' : Grid),
    WF g → combine g other ow = (g', none) → WF g' := by
  intro g other ow g' hwf hok
  unfold combine at hok
  by_cases hcond : 0 < (other.row_headings.filter (fun h => !pyMem h g.row_headings)).length ∧
      0 < (other.col_headings.filter (fun h => !pyMem h g.col_headings)).length
  · rw [if_pos hcond] at hok
    cases (Prod.mk.injEq _ _ _ _ ▸ hok).2
  · rw [if_neg hcond] at hok
    cases h1 : combineAppendRows other g
        (other.row_headings.filter (fun h => !pyMem h g.row_headings)) with
    | mk g1 e1 =>
      rw [h1] at hok
      cases e1 with
      | some e =>
        have hok2 : ((g1 : Grid), (some e : Option String)) = (g', none) := hok
        cases (Prod.mk.injEq _ _ _ _ ▸ hok2).2
      | none =>
        have hwf1 : WF g1 := WF_combineAppendRows other _ g g1 hwf h1
        have hok2 : (match combineAppendCols other g1
            (other.col_headings.filter (fun h => !pyMem h g.col_headings)) with
          | (g2, some e) => (g2, some e)
          | (g2, none) =>
            if ow = true then
              match (if 0 < (other.row_headings.filter
                        (fun h => !pyMem h g.row_headings)).length then
                      combineSetRows other g2
                        (other.row_headings.filter (fun h => pyMem h g2.row_headings))
                    else (g2, none)) with
              | (g3, some e) => (g3, some e)
              | (g3, none) =>
                if 0 < (other.col_headings.filter
                    (fun h => !pyMem h g.col_headings)).length then
                  combineSetCols other g3
                    (other.col_headings.filter (fun h => pyMem h g3.col_headings))
                else (g3, none)
            else (g2, none)) = (g', none) := hok
        cases h2 : combineAppendCols other g1
            (other.col_headings.filter (fun h => !pyMem h g.col_headings)) with
        | mk g2 e2 =>
          rw [h2] at hok2
          cases e2 with
          | some e =>
            have hok3 : ((g2 : Grid), (some e : Option String)) = (g', none) := hok2
            cases (Prod.mk.injEq _ _ _ _ ▸ hok3).2
          | none =>
            have hwf2 : WF g2 := WF_combineAppendCols other _ g1 g2 hwf1 h2
            cases ow with
            | false =>
              have hok3 : ((g2 : Grid), (none : Option String)) = (g', none) := hok2
              have hg : g2 = g' := (Prod.mk.injEq _ _ _ _ ▸ hok3).1
              exact hg ▸ hwf2
            | true =>
              have hok3 : (match (if 0 < (other.row_headings.filter
                      (fun h => !pyMem h g.row_headings)).length then
                    combineSetRows other g2
                      (other.row_headings.filter (fun h => pyMem h g2.row_headings))
                  else (g2, none)) with
                | (g3, some e) => (g3, some e)
                | (g3, none) =>
                  if 0 < (other.col_headings.filter
                      (fun h => !pyMem h g.col_headings)).length then
                    combineSetCols other g3
                      (other.col_headings.filter (fun h => pyMem h g3.col_headings))
                  else (g3, none)) = (g', none) := hok2
              have hwf3 : ∀ (p : Grid × Option String),
                  (if 0 < (other.row_headings.filter
                      (fun h => !pyMem h g.row_headings)).length then
                    combineSetRows other g2
                      (other.row_headings.filter (fun h => pyMem h g2.row_headings))
                  else (g2, none)) = p → p.2 = none → WF p.1 := by
                intro p hp hp2
                by_cases hnr : 0 < (other.row_headings.filter
                    (fun h => !pyMem h g.row_headings)).length
                · rw [if_pos hnr] at hp
                  obtain ⟨pg, pe⟩ := p
                  have : pe = none := hp2
                  subst this
                  exact WF_combineSetRows other _ g2 pg hwf2 hp
                · rw [if_neg hnr] at hp
                  obtain ⟨pg, pe⟩ := p
                  have hg2 : g2 = pg := (Prod.mk.injEq _ _ _ _ ▸ hp).1
                  exact hg2 ▸ hwf2
              cases hP : (if 0 < (other.row_headings.filter
                      (fun h => !pyMem h g.row_headings)).length then
                    combineSetRows other g2
                      (other.row_headings.filter (fun h => pyMem h g2.row_headings))
                  else (g2, none)) with
              | mk g3 e3 =>
                rw [hP] at hok3
                cases e3 with
                | some e =>
                  have hok4 : ((g3 : Grid), (some e : Option String)) = (g', none) := hok3
                  cases (Prod.mk.injEq _ _ _ _ ▸ hok4).2
                | none =>
                  have hwf3' : WF g3 := hwf3 (g3, none) hP rfl
                  have hok4 : (if 0 < (other.col_headings.filter
                      (fun h => !pyMem h g.col_headings)).length then
                      combineSetCols other g3
                        (other.col_headings.filter (fun h => pyMem h g3.col_headings))
                    else (g3, none)) = (g', none) := hok3
                  by_cases hnc : 0 < (other.col_headings.filter
                      (fun h => !pyMem h g.col_headings)).length
                  · rw [if_pos hnc] at hok4
                    exact WF_combineSetCols other _ g3 g' hwf3' hok4
                  · rw [if_neg hnc] at hok4
                    have hg : g3 = g' := (Prod.mk.injEq _ _ _ _ ▸ hok4).1
                    exact hg ▸ hwf3'

theorem setCell_success_iff (g : Grid) (r c v : PyVal)
    (hwf : WF g) (hr : pyMem r g.row_headings = true) :
    ((setCell g r c v).2 = none ↔ pyMem c g.col_headings = true) := by
  have hsome : (pyLookup r g.rows).isSome = true := by
    rw [pyLookup_isSome_eq, hwf.keysEq r]
    exact hr
  unfold setCell
  cases hl : pyLookup r g.rows with
  | none => rw [hl] at hsome; cases hsome
  | some row =>
    by_cases hc : pyMem c g.col_headings = true
    · rw [if_pos hc]
      simp [hc]
    · rw [if_neg hc]
      simp only [hc]
      constructor
      · intro hcon; cases hcon
      · intro hcon; cases hcon

theorem appendCol_new_col_mem {g : Grid} {h : PyVal} {vs : List PyVal} {g' : Grid}
    (hok : appendCol g h vs = (g', none)) : pyMem h g'.col_headings = true := by
  unfold appendCol at hok
  by_cases hlen : g.row_headings.length ≠ vs.length
  · rw [if_pos hlen] at hok
    cases (Prod.mk.injEq _ _ _ _ ▸ hok).2
  · rw [if_neg hlen] at hok
    by_cases hmem : pyMem h g.col_headings = true
    · rw [if_pos hmem] at hok
      cases (Prod.mk.injEq _ _ _ _ ▸ hok).2
    · rw [if_neg (by simpa using hmem)] at hok
      have hrun := runColCells_fields h
        { g with col_headings := g.col_headings ++ [h] } (g.row_headings.zip vs)
      rw [hok] at hrun
      show pyMem h g'.col_headings = true
      rw [show (g' : Grid).col_headings = g.col_headings ++ [h] from hrun.2.2.2.1]
      rw [pyMem_append, pyMem_cons, pyEq_refl h]
      simp

/-! ## Claim C5 — the structural invariant -/

/-- **C5.** After construction (empty via `__init__` with a title, or from
tabular input via `from_lines`) and after every `append_row`, `append_col`,
`set_row`, `set_col`, `swap_rows`, `swap_cols` or `combine` that returns
normally, the grid is well formed: in particular the key set of the
row-to-contents mapping coincides (under Python `==`) with the row-label
list, and writing a cell of an existing row succeeds exactly for the labels
of the column list — every row's allowed-key set is the grid's column-label
set.  Immediately after a successful `append_col`, the new column label is
settable on every existing row. -/
theorem grid_invariant_spec :
    (∀ (rh ch : List PyVal) (t : Option PyVal) (d : PyVal) (g : Grid),
      gridInit rh ch t d = Except.ok g → WF g) ∧
    (∀ (lines : List (List PyVal)) (g : Grid), fromLines lines = Except.ok g → WF g) ∧
    (∀ (g : Grid) (h : PyVal) (vs : List PyVal) (g' : Grid),
      WF g → appendRow g h vs = (g', none) → WF g') ∧
    (∀ (g : Grid) (h : PyVal) (vs : List PyVal) (g' : Grid),
      WF g → appendCol g h vs = (g', none) → WF g') ∧
    (∀ (g : Grid) (h : PyVal) (vs : List PyVal) (g' : Grid),
      WF g → setRow g h vs = (g', none) → WF g') ∧
    (∀ (g : Grid) (h : PyVal) (vs : List PyVal) (g' : Grid),
      WF g → setCol g h vs = (g', none) → WF g') ∧
    (∀ (g : Grid) (a b : PyVal) (g' : Grid),
      WF g → swapRows g a b = (g', none) → WF g') ∧
    (∀ (g : Grid) (a b : PyVal) (g' : Grid),
      WF g → swapCols g a b = (g', none) → WF g') ∧
    (∀ (g other : Grid) (ow : Bool) (g' : Grid),
      WF g → combine g other ow = (g', none) → WF g') ∧
    (∀ (g : Grid) (r c v : PyVal), WF g → pyMem r g.row_headings = true →
      ((setCell g r c v).2 = none ↔ pyMem c g.col_headings = true)) ∧
    (∀ (g : Grid) (h : PyVal) (vs : List PyVal) (g' : Grid), WF g →
      appendCol g h vs = (g', none) →
      ∀ r v, pyMem r g'.row_headings = true → (setCell g' r h v).2 = none) :=
  ⟨WF_gridInit, WF_fromLines, WF_appendRow, WF_appendCol, WF_setRow, WF_setCol,
   WF_swapRows, WF_swapCols, WF_combine, setCell_success_iff,
   fun g h vs g' hwf hok r v hr =>
     (setCell_success_iff g' r h v (WF_appendCol g h vs g' hwf hok) hr).mpr
       (appendCol_new_col_mem hok)⟩

def c5g : Grid :=
  { title := PyVal.str "G", dflt := PyVal.str "",
    row_headings := [PyVal.str "R1"], col_headings := [PyVal.str "C1"],
    rows := [(PyVal.str "R1", { entries := [(PyVal.str "C1", PyVal.int 1)], dflt := PyVal.str "" })] }

/-- **C5, witness**: the invariant after a concrete `append_row`, and the
freshly appended column is settable on an existing row. -/
theorem grid_invariant_spec_witness :
    WF (appendRow c5g (PyVal.str "R2") [PyVal.int 9]).1 ∧
    (setCell (appendCol c5g (PyVal.str "C2") [PyVal.int 7]).1
      (PyVal.str "R1") (PyVal.str "C2") (PyVal.int 5)).2 = none := by
  have hwf : WF c5g := ⟨by decide, by decide, fun x => rfl, by decide⟩
  constructor
  · exact grid_invariant_spec.2.2.1 c5g (PyVal.str "R2") [PyVal.int 9]
      (appendRow c5g (PyVal.str "R2") [PyVal.int 9]).1 hwf rfl
  · exact grid_invariant_spec.2.2.2.2.2.2.2.2.2.2 c5g (PyVal.str "C2") [PyVal.int 7]
      (appendCol c5g (PyVal.str "C2") [PyVal.int 7]).1 hwf rfl
      (PyVal.str "R1") (PyVal.int 5) (by decide)

/-! ## Claim C1 — the overwrite gating of `combine` -/

/-- `getCell` depends only on the row-lookup result at the queried label, the
column list, and the membership of the queried row label. -/
theorem getCell_rows_congr (g g' : Grid) (r c : PyVal)
    (hlook : pyLookup r g'.rows = pyLookup r g.rows)
    (hch : g'.col_headings = g.col_headings)
    (hrmem : pyMem r g'.row_headings = pyMem r g.row_headings) :
    getCell g' r c = getCell g r c := by
  unfold getCell
  rw [hlook, hch, hrmem]

/-- `getCell` depends on the column list only through the membership of the
queried column label. -/
theorem getCell_colmem_congr (g g' : Grid) (r c : PyVal)
    (hrows : g'.rows = g.rows)
    (hrh : g'.row_headings = g.row_headings)
    (hcmem : pyMem c g'.col_headings = pyMem c g.col_headings) :
    getCell g' r c = getCell g r c := by
  unfold getCell
  rw [hrows, hrh, hcmem]

/-- Cell reads cannot distinguish `==`-equal labels. -/
theorem getCell_label_congr (g : Grid) {r r' c c' : PyVal}
    (hr : pyEq r r' = true) (hc : pyEq c c' = true) :
    getCell g r c = getCell g r' c' := by
  unfold getCell
  rw [pyLookup_congr g.rows hr, pyMem_congr (l := g.row_headings) hr]
  cases hl : pyLookup r' g.rows with
  | some row =>
    show (match pyLookup c row.entries with
      | some v => Except.ok v
      | none => if pyMem c g.col_headings = true then Except.ok row.dflt
          else Except.error "KeyError") =
      (match pyLookup c' row.entries with
      | some v => Except.ok v
      | none => if pyMem c' g.col_headings = true then Except.ok row.dflt
          else Except.error "KeyError")
    rw [pyLookup_congr row.entries hc, pyMem_congr (l := g.col_headings) hc]
  | none => rfl

/-- An `Except`-valued `mapM` succeeds with a given output list as soon as
the function succeeds pointwise with the matching values. -/
theorem mapM_ok_pointwise (f : PyVal → Except String PyVal) :
    ∀ (l vs : List PyVal), l.length = vs.length →
    (∀ (j : Nat) (hj : j < l.length) (hj2 : j < vs.length), f l[j] = .ok vs[j]) →
    List.mapM f l = .ok vs := by
  intro l
  induction l with
  | nil =>
    intro vs hlen _
    cases vs with
    | nil => rfl
    | cons v vr => simp at hlen
  | cons x rest ih =>
    intro vs hlen hp
    cases vs with
    | nil => simp at hlen
    | cons v vr =>
      have h0 : f x = .ok v := by
        have := hp 0 (by simp) (by simp)
        simpa using this
      have hlen' : rest.length = vr.length := by simpa using hlen
      have hr : List.mapM f rest = .ok vr := by
        apply ih vr hlen'
        intro j hj hj2
        have := hp (j + 1) (by simpa using hj) (by simpa using hj2)
        simpa using this
      rw [List.mapM_cons, h0, hr]
      rfl

/-- `mapM` only looks at the function's values on members of the list. -/
theorem mapM_congr_mem (f f' : PyVal → Except String PyVal) :
    ∀ (l : List PyVal), (∀ x ∈ l, f x = f' x) →
    List.mapM f l = List.mapM f' l := by
  intro l
  induction l with
  | nil => intro _; rfl
  | cons x rest ih =>
    intro hp
    rw [List.mapM_cons, List.mapM_cons, hp x (by simp), ih (fun y hy => hp y (by simp [hy]))]

/-- `ConfigGrid.row` cannot distinguish `==`-equal row labels. -/
theorem rowValsE_label_congr (g : Grid) {r r' : PyVal} (hr : pyEq r r' = true) :
    rowValsE g r = rowValsE g r' :=
  mapM_congr_mem _ _ g.col_headings
    (fun c _ => getCell_label_congr g hr (pyEq_refl c))

/-- `ConfigGrid.col` cannot distinguish `==`-equal column labels. -/
theorem colValsE_label_congr (g : Grid) {c c' : PyVal} (hc : pyEq c c' = true) :
    colValsE g c = colValsE g c' :=
  mapM_congr_mem _ _ g.row_headings
    (fun r _ => getCell_label_congr g (pyEq_refl r) hc)

/-- A successful `append_row` appends the heading and leaves every cell of
any other row label unchanged. -/
theorem appendRow_frame {g : Grid} {h : PyVal} {vs : List PyVal} {g' : Grid}
    (hok : appendRow g h vs = (g', none)) :
    g'.row_headings = g.row_headings ++ [h] ∧
    g'.col_headings = g.col_headings ∧
    (∀ r c, pyEq h r = false → getCell g' r c = getCell g r c) := by
  unfold appendRow at hok
  by_cases hlen : g.col_headings.length ≠ vs.length
  · rw [if_pos hlen] at hok
    cases (Prod.mk.injEq _ _ _ _ ▸ hok).2
  · rw [if_neg hlen] at hok
    by_cases hmem : pyMem h g.row_headings = true
    · rw [if_pos hmem] at hok
      cases (Prod.mk.injEq _ _ _ _ ▸ hok).2
    · rw [if_neg (by simpa using hmem)] at hok
      have hrun := runRowCells_fields h
        { g with row_headings := g.row_headings ++ [h],
                 rows := dictSet g.rows h ⟨[], .str ""⟩ }
        (g.col_headings.zip vs)
      rw [hok] at hrun
      refine ⟨hrun.2.2.1, hrun.2.2.2.1, ?_⟩
      intro r c hne
      have hframe := runRowCells_frame h
        { g with row_headings := g.row_headings ++ [h],
                 rows := dictSet g.rows h ⟨[], .str ""⟩ }
        (g.col_headings.zip vs) r c (Or.inl hne)
      rw [hok] at hframe
      rw [hframe]
      apply getCell_rows_congr
      · exact pyLookup_dictSet_ne g.rows hne
      · rfl
      · show pyMem r (g.row_headings ++ [h]) = pyMem r g.row_headings
        rw [pyMem_append, pyMem_cons]
        simp [hne, pyMem]

/-- A successful `append_col` appends the heading and leaves every cell under
any other column label unchanged. -/
theorem appendCol_frame {g : Grid} {h : PyVal} {vs : List PyVal} {g' : Grid}
    (hok : appendCol g h vs = (g', none)) :
    g'.row_headings = g.row_headings ∧
    g'.col_headings = g.col_headings ++ [h] ∧
    (∀ r c, pyEq h c = false → getCell g' r c = getCell g r c) := by
  unfold appendCol at hok
  by_cases hlen : g.row_headings.length ≠ vs.length
  · rw [if_pos hlen] at hok
    cases (Prod.mk.injEq _ _ _ _ ▸ hok).2
  · rw [if_neg hlen] at hok
    by_cases hmem : pyMem h g.col_headings = true
    · rw [if_pos hmem] at hok
      cases (Prod.mk.injEq _ _ _ _ ▸ hok).2
    · rw [if_neg (by simpa using hmem)] at hok
      have hrun := runColCells_fields h
        { g with col_headings := g.col_headings ++ [h] } (g.row_headings.zip vs)
      rw [hok] at hrun
      refine ⟨hrun.2.2.1, hrun.2.2.2.1, ?_⟩
      intro r c hne
      have hframe := runColCells_frame h
        { g with col_headings := g.col_headings ++ [h] }
        (g.row_headings.zip vs) r c (Or.inl hne)
      rw [hok] at hframe
      rw [hframe]
      apply getCell_colmem_congr
      · rfl
      · rfl
      · show pyMem c (g.col_headings ++ [h]) = pyMem c g.col_headings
        rw [pyMem_append, pyMem_cons]
        simp [hne, pyMem]

/-- The row-appending pass of `combine` on fresh, duplicate-free headings:
the headings are appended in order and no cell of any other row label
changes. -/
theorem combineAppendRows_frame (other : Grid) :
    ∀ (hs : List PyVal) (g g' : Grid),
    (∀ x ∈ hs, pyMem x g.row_headings = false) → PyDistinct hs →
    combineAppendRows other g hs = (g', none) →
    g'.row_headings = g.row_headings ++ hs ∧
    g'.col_headings = g.col_headings ∧
    (∀ r c, (∀ x ∈ hs, pyEq x r = false) → getCell g' r c = getCell g r c) := by
  intro hs
  induction hs with
  | nil =>
    intro g g' _ _ hok
    have hg : g = g' := (Prod.mk.injEq _ _ _ _ ▸ hok).1
    subst hg
    exact ⟨by simp, rfl, fun r c _ => rfl⟩
  | cons h rest ih =>
    intro g g' hfresh hdist hok
    unfold combineAppendRows at hok
    cases hv : rowValsE other h with
    | error e =>
      rw [hv] at hok
      cases (Prod.mk.injEq _ _ _ _ ▸ hok).2
    | ok vs =>
      rw [hv] at hok
      have hokA : (match appendRow g h vs with
          | (g1, none) => combineAppendRows other g1 rest
          | (g1, some e) => (g1, some e)) = (g', none) := hok
      cases ha : appendRow g h vs with
      | mk g1 e =>
        rw [ha] at hokA
        cases e with
        | some e' =>
          have hok2 : ((g1 : Grid), (some e' : Option String)) = (g', none) := hokA
          cases (Prod.mk.injEq _ _ _ _ ▸ hok2).2
        | none =>
          have hok2 : combineAppendRows other g1 rest = (g', none) := hokA
          have hstep := appendRow_frame ha
          have hEqHd : ∀ x ∈ rest, pyEq h x = false :=
            (List.pairwise_cons.mp hdist).1
          have hfresh1 : ∀ x ∈ rest, pyMem x g1.row_headings = false := by
            intro x hx
            have h1 : pyMem x g.row_headings = false := hfresh x (by simp [hx])
            rw [hstep.1, pyMem_append, pyMem_cons, h1, hEqHd x hx]
            rfl
          have hrec := ih g1 g' hfresh1 (List.pairwise_cons.mp hdist).2 hok2
          refine ⟨?_, ?_, ?_⟩
          · rw [hrec.1, hstep.1]
            simp
          · rw [hrec.2.1, hstep.2.1]
          · intro r c hner
            rw [hrec.2.2 r c (fun x hx => hner x (by simp [hx]))]
            exact hstep.2.2 r c (hner h (by simp))

/-- The column-appending pass of `combine`, mirrored. -/
theorem combineAppendCols_frame (other : Grid) :
    ∀ (hs : List PyVal) (g g' : Grid),
    (∀ x ∈ hs, pyMem x g.col_headings = false) → PyDistinct hs →
    combineAppendCols other g hs = (g', none) →
    g'.col_headings = g.col_headings ++ hs ∧
    g'.row_headings = g.row_headings ∧
    (∀ r c, (∀ x ∈ hs, pyEq x c = false) → getCell g' r c = getCell g r c) := by
  intro hs
  induction hs with
  | nil =>
    intro g g' _ _ hok
    have hg : g = g' := (Prod.mk.injEq _ _ _ _ ▸ hok).1
    subst hg
    exact ⟨by simp, rfl, fun r c _ => rfl⟩
  | cons h rest ih =>
    intro g g' hfresh hdist hok
    unfold combineAppendCols at hok
    cases hv : colValsE other h with
    | error e =>
      rw [hv] at hok
      cases (Prod.mk.injEq _ _ _ _ ▸ hok).2
    | ok vs =>
      rw [hv] at hok
      have hokA : (match appendCol g h vs with
          | (g1, none) => combineAppendCols other g1 rest
          | (g1, some e) => (g1, some e)) = (g', none) := hok
      cases ha : appendCol g h vs with
      | mk g1 e =>
        rw [ha] at hokA
        cases e with
        | some e' =>
          have hok2 : ((g1 : Grid), (some e' : Option String)) = (g', none) := hokA
          cases (Prod.mk.injEq _ _ _ _ ▸ hok2).2
        | none =>
          have hok2 : combineAppendCols other g1 rest = (g', none) := hokA
          have hstep := appendCol_frame ha
          have hEqHd : ∀ x ∈ rest, pyEq h x = false :=
            (List.pairwise_cons.mp hdist).1
          have hfresh1 : ∀ x ∈ rest, pyMem x g1.col_headings = false := by
            intro x hx
            have h1 : pyMem x g.col_headings = false := hfresh x (by simp [hx])
            rw [hstep.2.1, pyMem_append, pyMem_cons, h1, hEqHd x hx]
            rfl
          have hrec := ih g1 g' hfresh1 (List.pairwise_cons.mp hdist).2 hok2
          refine ⟨?_, ?_, ?_⟩
          · rw [hrec.1, hstep.2.1]
            simp
          · rw [hrec.2.1, hstep.1]
          · intro r c hner
            rw [hrec.2.2 r c (fun x hx => hner x (by simp [hx]))]
            exact hstep.2.2 r c (hner h (by simp))

/-- A successful `set_row` on a present label: structural fields are kept,
the row reads back exactly the assigned values (positionally), and every
other row label's cells are unchanged. -/
theorem setRow_vals {g : Grid} {h : PyVal} {vs : List PyVal} {g' : Grid}
    (hwf : WF g) (hmem : pyMem h g.row_headings = true)
    (hok : setRow g h vs = (g', none)) :
    g'.row_headings = g.row_headings ∧ g'.col_headings = g.col_headings ∧
    rowValsE g' h = .ok vs ∧
    (∀ r c, pyEq h r = false → getCell g' r c = getCell g r c) := by
  unfold setRow at hok
  by_cases hlen : g.col_headings.length ≠ vs.length
  · rw [if_pos hlen] at hok
    cases (Prod.mk.injEq _ _ _ _ ▸ hok).2
  · rw [if_neg hlen] at hok
    have hlen' : g.col_headings.length = vs.length := not_ne_iff.mp hlen
    have hrun := runRowCells_fields h g (g.col_headings.zip vs)
    rw [hok] at hrun
    have hrow : (pyLookup h g.rows).isSome = true := by
      rw [pyLookup_isSome_eq, hwf.keysEq h]
      exact hmem
    have hcols : ∀ p ∈ g.col_headings.zip vs, pyMem p.1 g.col_headings = true := by
      intro p hp
      exact pyMem_iff_exists.mpr ⟨p.1, zip_keys_mem hp, pyEq_refl p.1⟩
    have hdist := pyDistinct_zip_keys vs hwf.colsDistinct
    refine ⟨hrun.2.2.1, hrun.2.2.2.1, ?_, ?_⟩
    · show List.mapM (fun c => getCell g' h c) g'.col_headings = Except.ok vs
      rw [hrun.2.2.2.1]
      apply mapM_ok_pointwise _ _ _ hlen'
      intro j hj hj2
      have hjz : j < (g.col_headings.zip vs).length := by
        rw [List.length_zip, hlen']
        simpa using hj2
      have hget := runRowCells_get h g (g.col_headings.zip vs) j hjz hrow hcols hdist
      rw [hok] at hget
      rw [List.getElem_zip] at hget
      exact hget
    · intro r c hne
      have hframe := runRowCells_frame h g (g.col_headings.zip vs) r c (Or.inl hne)
      rw [hok] at hframe
      exact hframe

/-- A successful `set_col` on a present label, mirrored. -/
theorem setCol_vals {g : Grid} {h : PyVal} {vs : List PyVal} {g' : Grid}
    (hwf : WF g) (hmem : pyMem h g.col_headings = true)
    (hok : setCol g h vs = (g', none)) :
    g'.row_headings = g.row_headings ∧ g'.col_headings = g.col_headings ∧
    colValsE g' h = .ok vs ∧
    (∀ r c, pyEq h c = false → getCell g' r c = getCell g r c) := by
  unfold setCol at hok
  by_cases hlen : g.row_headings.length ≠ vs.length
  · rw [if_pos hlen] at hok
    cases (Prod.mk.injEq _ _ _ _ ▸ hok).2
  · rw [if_neg hlen] at hok
    have hlen' : g.row_headings.length = vs.length := not_ne_iff.mp hlen
    have hrun := runColCells_fields h g (g.row_headings.zip vs)
    rw [hok] at hrun
    have hrows : ∀ p ∈ g.row_headings.zip vs, (pyLookup p.1 g.rows).isSome = true := by
      intro p hp
      rw [pyLookup_isSome_eq, hwf.keysEq p.1]
      exact pyMem_iff_exists.mpr ⟨p.1, zip_keys_mem hp, pyEq_refl p.1⟩
    have hdist := pyDistinct_zip_keys vs hwf.rowsDistinct
    refine ⟨hrun.2.2.1, hrun.2.2.2.1, ?_, ?_⟩
    · show List.mapM (fun r => getCell g' r h) g'.row_headings = Except.ok vs
      rw [hrun.2.2.1]
      apply mapM_ok_pointwise _ _ _ hlen'
      intro j hj hj2
      have hjz : j < (g.row_headings.zip vs).length := by
        rw [List.length_zip, hlen']
        simpa using hj2
      have hget := runColCells_get h g (g.row_headings.zip vs) j hjz hmem hrows hdist
      rw [hok] at hget
      rw [List.getElem_zip] at hget
      exact hget
    · intro r c hne
      have hframe := runColCells_frame h g (g.row_headings.zip vs) r c (Or.inl hne)
      rw [hok] at hframe
      exact hframe

/-- The row-overwriting pass of `combine` over present, duplicate-free
labels: every processed row reads back `other`'s values for it, and rows
with unrelated labels are untouched. -/
theorem combineSetRows_vals (other : Grid) :
    ∀ (hs : List PyVal) (g g' : Grid),
    WF g →
    (∀ x ∈ hs, pyMem x g.row_headings = true) → PyDistinct hs →
    combineSetRows other g hs = (g', none) →
    g'.row_headings = g.row_headings ∧ g'.col_headings = g.col_headings ∧
    (∀ x ∈ hs, rowValsE g' x = rowValsE other x) ∧
    (∀ r c, (∀ x ∈ hs, pyEq x r = false) → getCell g' r c = getCell g r c) := by
  intro hs
  induction hs with
  | nil =>
    intro g g' _ _ _ hok
    have hg : g = g' := (Prod.mk.injEq _ _ _ _ ▸ hok).1
    subst hg
    exact ⟨rfl, rfl, by simp, fun r c _ => rfl⟩
  | cons h rest ih =>
    intro g g' hwf hmem hdist hok
    unfold combineSetRows at hok
    cases hv : rowValsE other h with
    | error e =>
      rw [hv] at hok
      cases (Prod.mk.injEq _ _ _ _ ▸ hok).2
    | ok vs =>
      rw [hv] at hok
      have hokA : (match setRow g h vs with
          | (g1, none) => combineSetRows other g1 rest
          | (g1, some e) => (g1, some e)) = (g', none) := hok
      cases ha : setRow g h vs with
      | mk g1 e =>
        rw [ha] at hokA
        cases e with
        | some e' =>
          have hok2 : ((g1 : Grid), (some e' : Option String)) = (g', none) := hokA
          cases (Prod.mk.injEq _ _ _ _ ▸ hok2).2
        | none =>
          have hok2 : combineSetRows other g1 rest = (g', none) := hokA
          have hsv := setRow_vals hwf (hmem h (by simp)) ha
          have hwf1 : WF g1 := WF_setRow g h vs g1 hwf ha
          have hmem1 : ∀ x ∈ rest, pyMem x g1.row_headings = true := by
            intro x hx
            rw [hsv.1]
            exact hmem x (by simp [hx])
          have hrec := ih g1 g' hwf1 hmem1 (List.pairwise_cons.mp hdist).2 hok2
          have hEqHd : ∀ x ∈ rest, pyEq h x = false :=
            (List.pairwise_cons.mp hdist).1
          refine ⟨hrec.1.trans hsv.1, hrec.2.1.trans hsv.2.1, ?_, ?_⟩
          · intro x hx
            rcases List.mem_cons.mp hx with hx0 | hx1
            · subst hx0
              have hcongr : rowValsE g' x = rowValsE g1 x := by
                show List.mapM (fun c => getCell g' x c) g'.col_headings =
                  List.mapM (fun c => getCell g1 x c) g1.col_headings
                rw [hrec.2.1]
                apply mapM_congr_mem
                intro y _
                apply hrec.2.2.2 x y
                intro z hz
                rw [pyEq_symm]
                exact hEqHd z hz
              rw [hcongr, hsv.2.2.1, hv]
            · exact hrec.2.2.1 x hx1
          · intro r c hner
            rw [hrec.2.2.2 r c (fun x hx => hner x (by simp [hx]))]
            exact hsv.2.2.2 r c (hner h (by simp))

/-- The column-overwriting pass of `combine`, mirrored. -/
theorem combineSetCols_vals (other : Grid) :
    ∀ (hs : List PyVal) (g g' : Grid),
    WF g →
    (∀ x ∈ hs, pyMem x g.col_headings = true) → PyDistinct hs →
    combineSetCols other g hs = (g', none) →
    g'.row_headings = g.row_headings ∧ g'.col_headings = g.col_headings ∧
    (∀ x ∈ hs, colValsE g' x = colValsE other x) ∧
    (∀ r c, (∀ x ∈ hs, pyEq x c = false) → getCell g' r c = getCell g r c) := by
  intro hs
  induction hs with
  | nil =>
    intro g g' _ _ _ hok
    have hg : g = g' := (Prod.mk.injEq _ _ _ _ ▸ hok).1
    subst hg
    exact ⟨rfl, rfl, by simp, fun r c _ => rfl⟩
  | cons h rest ih =>
    intro g g' hwf hmem hdist hok
    unfold combineSetCols at hok
    cases hv : colValsE other h with
    | error e =>
      rw [hv] at hok
      cases (Prod.mk.injEq _ _ _ _ ▸ hok).2
    | ok vs =>
      rw [hv] at hok
      have hokA : (match setCol g h vs with
          | (g1, none) => combineSetCols other g1 rest
          | (g1, some e) => (g1, some e)) = (g', none) := hok
      cases ha : setCol g h vs with
      | mk g1 e =>
        rw [ha] at hokA
        cases e with
        | some e' =>
          have hok2 : ((g1 : Grid), (some e' : Option String)) = (g', none) := hokA
          cases (Prod.mk.injEq _ _ _ _ ▸ hok2).2
        | none =>
          have hok2 : combineSetCols other g1 rest = (g', none) := hokA
          have hsv := setCol_vals hwf (hmem h (by simp)) ha
          have hwf1 : WF g1 := WF_setCol g h vs g1 hwf ha
          have hmem1 : ∀ x ∈ rest, pyMem x g1.col_headings = true := by
            intro x hx
            rw [hsv.2.1]
            exact hmem x (by simp [hx])
          have hrec := ih g1 g' hwf1 hmem1 (List.pairwise_cons.mp hdist).2 hok2
          have hEqHd : ∀ x ∈ rest, pyEq h x = false :=
            (List.pairwise_cons.mp hdist).1
          refine ⟨hrec.1.trans hsv.1, hrec.2.1.trans hsv.2.1, ?_, ?_⟩
          · intro x hx
            rcases List.mem_cons.mp hx with hx0 | hx1
            · subst hx0
              have hcongr : colValsE g' x = colValsE g1 x := by
                show List.mapM (fun r => getCell g' r x) g'.row_headings =
                  List.mapM (fun r => getCell g1 r x) g1.row_headings
                rw [hrec.1]
                apply mapM_congr_mem
                intro y _
                apply hrec.2.2.2 y x
                intro z hz
                rw [pyEq_symm]
                exact hEqHd z hz
              rw [hcongr, hsv.2.2.1, hv]
            · exact hrec.2.2.1 x hx1
          · intro r c hner
            rw [hrec.2.2.2 r c (fun x hx => hner x (by simp [hx]))]
            exact hsv.2.2.2 r c (hner h (by simp))

/-- **C1.** How `combine(other, overwrite)` gates its overwrite passes, for
every pair of well-formed grids on which it returns normally: (1) with
`overwrite` true and at least one new row label contributed, every row label
of `other` — in particular every label common to both grids — afterwards
reads back exactly `other`'s row values; (2) with `overwrite` true and at
least one new column label contributed, every column label of `other` reads
back `other`'s column values; (3) when no new row label was contributed,
rows are not overwritten even with `overwrite` true: every cell under a
column label not `==`-present among `other`'s columns is unchanged; (4)
symmetrically, when no new column label was contributed, every cell of a row
label not `==`-present among `other`'s rows is unchanged; (5) with
`overwrite` false, every cell at a pre-existing row and column label keeps
its prior value. -/
theorem combine_overwrite_spec (g other : Grid) (ow : Bool) (g' : Grid)
    (hwfg : WF g) (hwfo : WF other)
    (hok : combine g other ow = (g', none)) :
    (ow = true →
      other.row_headings.filter (fun x => !pyMem x g.row_headings) ≠ [] →
      ∀ r, pyMem r other.row_headings = true → rowValsE g' r = rowValsE other r) ∧
    (ow = true →
      other.col_headings.filter (fun x => !pyMem x g.col_headings) ≠ [] →
      ∀ c, pyMem c other.col_headings = true → colValsE g' c = colValsE other c) ∧
    (other.row_headings.filter (fun x => !pyMem x g.row_headings) = [] →
      ∀ r c, pyMem c other.col_headings = false → getCell g' r c = getCell g r c) ∧
    (other.col_headings.filter (fun x => !pyMem x g.col_headings) = [] →
      ∀ r c, pyMem r other.row_headings = false → getCell g' r c = getCell g r c) ∧
    (ow = false →
      ∀ r c, pyMem r g.row_headings = true → pyMem c g.col_headings = true →
        getCell g' r c = getCell g r c) := by
  have hprotR : ∀ r, pyMem r g.row_headings = true →
      ∀ x ∈ other.row_headings.filter (fun h => !pyMem h g.row_headings),
      pyEq x r = false := by
    intro r hr x hx
    cases hxy : pyEq x r with
    | false => rfl
    | true =>
      have hm := pyMem_congr (l := g.row_headings) hxy
      have hxf : pyMem x g.row_headings = false := by
        simpa using (List.mem_filter.mp hx).2
      rw [hxf, hr] at hm
      cases hm
  have hprotC : ∀ c, pyMem c g.col_headings = true →
      ∀ x ∈ other.col_headings.filter (fun h => !pyMem h g.col_headings),
      pyEq x c = false := by
    intro c hc x hx
    cases hxy : pyEq x c with
    | false => rfl
    | true =>
      have hm := pyMem_congr (l := g.col_headings) hxy
      have hxf : pyMem x g.col_headings = false := by
        simpa using (List.mem_filter.mp hx).2
      rw [hxf, hc] at hm
      cases hm
  have hprotRo : ∀ r, pyMem r other.row_headings = false →
      ∀ x ∈ other.row_headings, pyEq x r = false :=
    fun r hr => pyMem_eq_false_iff.mp hr
  have hprotCo : ∀ c, pyMem c other.col_headings = false →
      ∀ x ∈ other.col_headings, pyEq x c = false :=
    fun c hc => pyMem_eq_false_iff.mp hc
  have hfreshR : ∀ x ∈ other.row_headings.filter (fun h => !pyMem h g.row_headings),
      pyMem x g.row_headings = false := by
    intro x hx
    simpa using (List.mem_filter.mp hx).2
  have hfreshC : ∀ x ∈ other.col_headings.filter (fun h => !pyMem h g.col_headings),
      pyMem x g.col_headings = false := by
    intro x hx
    simpa using (List.mem_filter.mp hx).2
  have hsubR : ∀ x ∈ other.row_headings.filter (fun h => !pyMem h g.row_headings),
      x ∈ other.row_headings := fun x hx => (List.mem_filter.mp hx).1
  have hsubC : ∀ x ∈ other.col_headings.filter (fun h => !pyMem h g.col_headings),
      x ∈ other.col_headings := fun x hx => (List.mem_filter.mp hx).1
  have hdistR : PyDistinct (other.row_headings.filter (fun h => !pyMem h g.row_headings)) :=
    List.Pairwise.filter _ hwfo.rowsDistinct
  have hdistC : PyDistinct (other.col_headings.filter (fun h => !pyMem h g.col_headings)) :=
    List.Pairwise.filter _ hwfo.colsDistinct
  unfold combine at hok
  by_cases hcond : 0 < (other.row_headings.filter (fun h => !pyMem h g.row_headings)).length ∧
      0 < (other.col_headings.filter (fun h => !pyMem h g.col_headings)).length
  · rw [if_pos hcond] at hok
    cases (Prod.mk.injEq _ _ _ _ ▸ hok).2
  · rw [if_neg hcond] at hok
    cases h1 : combineAppendRows other g
        (other.row_headings.filter (fun h => !pyMem h g.row_headings)) with
    | mk g1 e1 =>
      rw [h1] at hok
      cases e1 with
      | some e =>
        have hok2 : ((g1 : Grid), (some e : Option String)) = (g', none) := hok
        cases (Prod.mk.injEq _ _ _ _ ▸ hok2).2
      | none =>
        have hwf1 : WF g1 := WF_combineAppendRows other _ g g1 hwfg h1
        have hfrA := combineAppendRows_frame other _ g g1 hfreshR hdistR h1
        have hok2 : (match combineAppendCols other g1
            (other.col_headings.filter (fun h => !pyMem h g.col_headings)) with
          | (g2, some e) => (g2, some e)
          | (g2, none) =>
            if ow = true then
              match (if 0 < (other.row_headings.filter
                        (fun h => !pyMem h g.row_headings)).length then
                      combineSetRows other g2
                        (other.row_headings.filter (fun h => pyMem h g2.row_headings))
                    else (g2, none)) with
              | (g3, some e) => (g3, some e)
              | (g3, none) =>
                if 0 < (other.col_headings.filter
                    (fun h => !pyMem h g.col_headings)).length then
                  combineSetCols other g3
                    (other.col_headings.filter (fun h => pyMem h g3.col_headings))
                else (g3, none)
            else (g2, none)) = (g', none) := hok
        cases h2 : combineAppendCols other g1
            (other.col_headings.filter (fun h => !pyMem h g.col_headings)) with
        | mk g2 e2 =>
          rw [h2] at hok2
          cases e2 with
          | some e =>
            have hok3 : ((g2 : Grid), (some e : Option String)) = (g', none) := hok2
            cases (Prod.mk.injEq _ _ _ _ ▸ hok3).2
          | none =>
            have hfreshC1 : ∀ x ∈ other.col_headings.filter
                (fun h => !pyMem h g.col_headings), pyMem x g1.col_headings = false := by
              intro x hx
              rw [hfrA.2.1]
              exact hfreshC x hx
            have hwf2 : WF g2 := WF_combineAppendCols other _ g1 g2 hwf1 h2
            have hfrB := combineAppendCols_frame other _ g1 g2 hfreshC1 hdistC h2
            have hG2rh : g2.row_headings = g.row_headings ++
                other.row_headings.filter (fun h => !pyMem h g.row_headings) :=
              hfrB.2.1.trans hfrA.1
            have hG2ch : g2.col_headings = g.col_headings ++
                other.col_headings.filter (fun h => !pyMem h g.col_headings) := by
              rw [hfrB.1, hfrA.2.1]
            have hFrame2 : ∀ r c,
                (∀ x ∈ other.row_headings.filter (fun h => !pyMem h g.row_headings),
                  pyEq x r = false) →
                (∀ x ∈ other.col_headings.filter (fun h => !pyMem h g.col_headings),
                  pyEq x c = false) →
                getCell g2 r c = getCell g r c := by
              intro r c hr hc
              rw [hfrB.2.2 r c hc]
              exact hfrA.2.2 r c hr
            have hMemR2 : ∀ x ∈ other.row_headings, pyMem x g2.row_headings = true := by
              intro x hx
              rw [hG2rh, pyMem_append]
              cases hm : pyMem x g.row_headings with
              | true => rfl
              | false =>
                have hxNR : x ∈ other.row_headings.filter
                    (fun h => !pyMem h g.row_headings) :=
                  List.mem_filter.mpr ⟨hx, by simp [hm]⟩
                have hmm : pyMem x (other.row_headings.filter
                    (fun h => !pyMem h g.row_headings)) = true :=
                  pyMem_iff_exists.mpr ⟨x, hxNR, pyEq_refl x⟩
                simp [hmm]
            have hMemC2 : ∀ x ∈ other.col_headings, pyMem x g2.col_headings = true := by
              intro x hx
              rw [hG2ch, pyMem_append]
              cases hm : pyMem x g.col_headings with
              | true => rfl
              | false =>
                have hxNC : x ∈ other.col_headings.filter
                    (fun h => !pyMem h g.col_headings) :=
                  List.mem_filter.mpr ⟨hx, by simp [hm]⟩
                have hmm : pyMem x (other.col_headings.filter
                    (fun h => !pyMem h g.col_headings)) = true :=
                  pyMem_iff_exists.mpr ⟨x, hxNC, pyEq_refl x⟩
                simp [hmm]
            cases ow with
            | false =>
              have hok3 : ((g2 : Grid), (none : Option String)) = (g', none) := hok2
              have hg : g2 = g' := (Prod.mk.injEq _ _ _ _ ▸ hok3).1
              subst hg
              refine ⟨?_, ?_, ?_, ?_, ?_⟩
              · intro hcontra
                cases hcontra
              · intro hcontra
                cases hcontra
              · intro hNRnil r c hc
                exact hFrame2 r c
                  (fun x hx => absurd (hNRnil ▸ hx) (by simp))
                  (fun x hx => hprotCo c hc x (hsubC x hx))
              · intro hNCnil r c hr
                exact hFrame2 r c
                  (fun x hx => hprotRo r hr x (hsubR x hx))
                  (fun x hx => absurd (hNCnil ▸ hx) (by simp))
              · intro _ r c hr hc
                exact hFrame2 r c (hprotR r hr) (hprotC c hc)
            | true =>
              have hok3 : (match (if 0 < (other.row_headings.filter
                      (fun h => !pyMem h g.row_headings)).length then
                    combineSetRows other g2
                      (other.row_headings.filter (fun h => pyMem h g2.row_headings))
                  else (g2, none)) with
                | (g3, some e) => (g3, some e)
                | (g3, none) =>
                  if 0 < (other.col_headings.filter
                      (fun h => !pyMem h g.col_headings)).length then
                    combineSetCols other g3
                      (other.col_headings.filter (fun h => pyMem h g3.col_headings))
                  else (g3, none)) = (g', none) := hok2
              cases hP : (if 0 < (other.row_headings.filter
                      (fun h => !pyMem h g.row_headings)).length then
                    combineSetRows other g2
                      (other.row_headings.filter (fun h => pyMem h g2.row_headings))
                  else (g2, none)) with
              | mk g3 e3 =>
                rw [hP] at hok3
                cases e3 with
                | some e =>
                  have hok4 : ((g3 : Grid), (some e : Option String)) = (g', none) := hok3
                  cases (Prod.mk.injEq _ _ _ _ ▸ hok4).2
                | none =>
                  have hok4 : (if 0 < (other.col_headings.filter
                      (fun h => !pyMem h g.col_headings)).length then
                      combineSetCols other g3
                        (other.col_headings.filter (fun h => pyMem h g3.col_headings))
                    else (g3, none)) = (g', none) := hok3
                  by_cases hNR : 0 < (other.row_headings.filter
                      (fun h => !pyMem h g.row_headings)).length
                  · have hNCz : ¬ 0 < (other.col_headings.filter
                        (fun h => !pyMem h g.col_headings)).length :=
                      fun hc => hcond ⟨hNR, hc⟩
                    have hNCnil : other.col_headings.filter
                        (fun h => !pyMem h g.col_headings) = [] :=
                      List.length_eq_zero.mp (Nat.eq_zero_of_not_pos hNCz)
                    rw [if_pos hNR] at hP
                    rw [if_neg hNCz] at hok4
                    have hg : g3 = g' := (Prod.mk.injEq _ _ _ _ ▸ hok4).1
                    rw [hg] at hP
                    have hOvR : other.row_headings.filter
                        (fun h => pyMem h g2.row_headings) = other.row_headings :=
                      List.filter_eq_self.mpr hMemR2
                    rw [hOvR] at hP
                    have hSR := combineSetRows_vals other other.row_headings g2 g'
                      hwf2 hMemR2 hwfo.rowsDistinct hP
                    refine ⟨?_, ?_, ?_, ?_, ?_⟩
                    · intro _ _ r hr
                      obtain ⟨e', he', heq⟩ := pyMem_iff_exists.mp hr
                      calc rowValsE g' r = rowValsE g' e' :=
                            (rowValsE_label_congr g' heq).symm
                        _ = rowValsE other e' := hSR.2.2.1 e' he'
                        _ = rowValsE other r := rowValsE_label_congr other heq
                    · intro _ hne
                      exact absurd hNCnil hne
                    · intro hnil
                      rw [hnil] at hNR
                      simp at hNR
                    · intro _ r c hr
                      rw [hSR.2.2.2 r c (fun x hx => hprotRo r hr x hx)]
                      exact hFrame2 r c
                        (fun x hx => hprotRo r hr x (hsubR x hx))
                        (fun x hx => absurd (hNCnil ▸ hx) (by simp))
                    · intro hcontra
                      cases hcontra
                  · rw [if_neg hNR] at hP
                    have hg23 : g2 = g3 := (Prod.mk.injEq _ _ _ _ ▸ hP).1
                    subst hg23
                    have hNRnil : other.row_headings.filter
                        (fun h => !pyMem h g.row_headings) = [] :=
                      List.length_eq_zero.mp (Nat.eq_zero_of_not_pos hNR)
                    by_cases hNC : 0 < (other.col_headings.filter
                        (fun h => !pyMem h g.col_headings)).length
                    · rw [if_pos hNC] at hok4
                      have hOvC : other.col_headings.filter
                          (fun h => pyMem h g2.col_headings) = other.col_headings :=
                        List.filter_eq_self.mpr hMemC2
                      rw [hOvC] at hok4
                      have hSC := combineSetCols_vals other other.col_headings g2 g'
                        hwf2 hMemC2 hwfo.colsDistinct hok4
                      refine ⟨?_, ?_, ?_, ?_, ?_⟩
                      · intro _ hne
                        exact absurd hNRnil hne
                      · intro _ _ c hc
                        obtain ⟨e', he', heq⟩ := pyMem_iff_exists.mp hc
                        calc colValsE g' c = colValsE g' e' :=
                              (colValsE_label_congr g' heq).symm
                          _ = colValsE other e' := hSC.2.2.1 e' he'
                          _ = colValsE other c := colValsE_label_congr other heq
                      · intro _ r c hc
                        rw [hSC.2.2.2 r c (fun x hx => hprotCo c hc x hx)]
                        exact hFrame2 r c
                          (fun x hx => absurd (hNRnil ▸ hx) (by simp))
                          (fun x hx => hprotCo c hc x (hsubC x hx))
                      · intro hnil
                        rw [hnil] at hNC
                        simp at hNC
                      · intro hcontra
                        cases hcontra
                    · rw [if_neg hNC] at hok4
                      have hg : g2 = g' := (Prod.mk.injEq _ _ _ _ ▸ hok4).1
                      subst hg
                      have hNCnil : other.col_headings.filter
                          (fun h => !pyMem h g.col_headings) = [] :=
                        List.length_eq_zero.mp (Nat.eq_zero_of_not_pos hNC)
                      refine ⟨?_, ?_, ?_, ?_, ?_⟩
                      · intro _ hne
                        exact absurd hNRnil hne
                      · intro _ hne
                        exact absurd hNCnil hne
                      · intro _ r c _
                        exact hFrame2 r c
                          (fun x hx => absurd (hNRnil ▸ hx) (by simp))
                          (fun x hx => absurd (hNCnil ▸ hx) (by simp))
                      · intro _ r c _
                        exact hFrame2 r c
                          (fun x hx => absurd (hNRnil ▸ hx) (by simp))
                          (fun x hx => absurd (hNCnil ▸ hx) (by simp))
                      · intro hcontra
                        cases hcontra

/-- A 1×1 grid with a single stored cell. -/
def c1g : Grid :=
  { title := .str "G", dflt := .str "",
    row_headings := [.str "r1"], col_headings := [.str "c1"],
    rows := [(.str "r1", ⟨[(.str "c1", .int 1)], .str ""⟩)] }

/-- A grid sharing `c1g`'s row and first column and contributing one new
column. -/
def c1other : Grid :=
  { title := .str "O", dflt := .str "",
    row_headings := [.str "r1"], col_headings := [.str "c1", .str "c2"],
    rows := [(.str "r1", ⟨[(.str "c1", .int 7), (.str "c2", .int 8)], .str ""⟩)] }

theorem combine_overwrite_spec_witness :
    colValsE (combine c1g c1other true).1 (PyVal.str "c1") =
      colValsE c1other (PyVal.str "c1") ∧
    getCell (combine c1g c1other true).1 (PyVal.str "r1") (PyVal.str "zz") =
      getCell c1g (PyVal.str "r1") (PyVal.str "zz") := by
  have hwfg : WF c1g := ⟨by decide, by decide, fun x => rfl, by decide⟩
  have hwfo : WF c1other := ⟨by decide, by decide, fun x => rfl, by decide⟩
  have hok : combine c1g c1other true = ((combine c1g c1other true).1, none) := by
    decide
  have h := combine_overwrite_spec c1g c1other true
    (combine c1g c1other true).1 hwfg hwfo hok
  exact ⟨h.2.1 rfl (by decide) (PyVal.str "c1") (by decide),
    h.2.2.1 (by decide) (PyVal.str "r1") (PyVal.str "zz") (by decide)⟩

end ConfigGridProof
